import Mathlib

/-!
Verification of the request-normalization and response-shaping pipeline of the
s3b_user_service repository (AWS Lambda handlers in
src/aws_lambda_functions/*/lambda_function.py).

The embedding models Python values as `PyVal`, Python dicts as insertion-ordered
association lists (`Dict`), raised exceptions as `Except PyErr`, and the
side-effecting parts of a handler (identity-provider calls, SQL statements,
cursor lifecycle) as explicit event traces.  Each definition is translated from
the corresponding Python function; the two shared utility functions
`utils.camel_case` and `utils.snake_case` are not part of the provided sources
and are modelled from the spec (see their doc comments).
-/

/-- A Python runtime value, restricted to the shapes this service manipulates:
None, strings, integers, booleans, lists and (insertion-ordered) dicts with
string keys. -/
inductive PyVal where
  | null : PyVal
  | str : String → PyVal
  | int : Int → PyVal
  | bool : Bool → PyVal
  | list : List PyVal → PyVal
  | dict : List (String × PyVal) → PyVal
deriving Repr

/-- A Python dict with string keys, kept in insertion order (Python 3.7+
dicts preserve insertion order). -/
abbrev Dict := List (String × PyVal)

/-- Exceptions raised by the handlers, by kind (the Python code raises
`Exception` with a formatted message; we keep the discriminating data). -/
inductive PyErr where
  | unknownArgument (name : String) : PyErr
  | noneArgument (name : String) : PyErr
  | keyError (key : String) : PyErr
  | typeError : PyErr
deriving Repr, DecidableEq

/-- Python `d[k] = v`: update the value in place when the key is present
(keeping its position), otherwise append the new pair. -/
def dinsert : Dict → String → PyVal → Dict
  | [], k, v => [(k, v)]
  | (k', v') :: rest, k, v =>
    if k' = k then (k, v) :: rest else (k', v') :: dinsert rest k v

/-- Python `d.get(k)` as an `Option`. -/
def dlookup : Dict → String → Option PyVal
  | [], _ => Option.none
  | (k', v') :: rest, k => if k' = k then some v' else dlookup rest k

/-- Python `d.get(k, None)`. -/
def dgetD (d : Dict) (k : String) : PyVal :=
  (dlookup d k).getD PyVal.null

/-- Python `d[k]`, raising `KeyError` when the key is absent. -/
def dgetE (d : Dict) (k : String) : Except PyErr PyVal :=
  match dlookup d k with
  | some v => Except.ok v
  | Option.none => Except.error (PyErr.keyError k)

/-- Python `k in d`. -/
def dhasKey : Dict → String → Bool
  | [], _ => false
  | (k', _) :: rest, k => if k' = k then true else dhasKey rest k

/-- Python `{**a, **b}`: shallow merge, entries of `b` overriding entries of
`a`. -/
def dmerge (a b : Dict) : Dict :=
  b.foldl (fun acc p => dinsert acc p.1 p.2) a

/-- Python `x is None`. -/
def PyVal.isNull : PyVal → Bool
  | PyVal.null => true
  | _ => false

/-- Prefix test on character lists (structural, so that concrete instances
reduce inside the kernel). -/
def charsPrefixOf : List Char → List Char → Bool
  | [], _ => true
  | _ :: _, [] => false
  | c :: cs, d :: ds => if c = d then charsPrefixOf cs ds else false

/-- Python `s.startswith(pat)`. -/
def strStartsWith (s pat : String) : Bool :=
  charsPrefixOf pat.data s.data

/-- Whether `pat` occurs as a contiguous run of `l`. -/
def charsContains (pat : List Char) : List Char → Bool
  | [] => charsPrefixOf pat []
  | c :: rest => charsPrefixOf pat (c :: rest) || charsContains pat rest

/-- Python `pat in s` (substring containment test on strings). -/
def strContains (s pat : String) : Bool :=
  charsContains pat.data s.data

/-- Split a character list on a separator character (like Python
`s.split(sep)`): always returns at least one (possibly empty) word. -/
def charsSplitOn (sep : Char) : List Char → List (List Char)
  | [] => [[]]
  | c :: rest =>
    match charsSplitOn sep rest with
    | [] => [[]]
    | w :: ws => if c = sep then [] :: w :: ws else (c :: w) :: ws

/-- Uppercase the first character of a word. -/
def charsCapitalize : List Char → List Char
  | [] => []
  | c :: cs => c.toUpper :: cs

/-- Modelled from the spec: `utils.camel_case` (not among the provided source
files) converts a snake_case name to camelCase — the first underscore-separated
word is kept as is and every following word is capitalized
("gender_public_name" becomes "genderPublicName").  The spec describes it as
the "remaining name converted from snake_case to camelCase". -/
def camel_case (s : String) : String :=
  match charsSplitOn '_' s.data with
  | [] => s
  | w :: ws => String.mk (w ++ (ws.map charsCapitalize).flatten)

/-- Modelled from the spec: `utils.snake_case` (not among the provided source
files) converts a camelCase name to snake_case by inserting an underscore
before each uppercase letter and lowercasing it ("userFirstName" becomes
"user_first_name"). -/
def snake_case (s : String) : String :=
  String.mk (s.data.foldl
    (fun acc c => if c.isUpper then acc ++ ['_', c.toLower] else acc ++ [c]) [])


/-!
Parallel Task Runner — `run_multithreading_tasks`, identical in every
handler (for example create_internal_user/lambda_function.py lines 32-74).

A task descriptor's target either puts one dict into the shared queue and
returns, or raises.  In CPython, an exception raised inside a `Thread` target
terminates only that worker thread (it is printed by the thread machinery);
`Thread.join` returns normally and never re-raises it.  A task is therefore
embedded as its outcome `Except PyErr Dict` (the dict it would put into the
queue), and the runner drains the queue, merging the dicts of the tasks that
completed successfully.  The real drain order is completion order; the claims
only depend on which keys appear, so the embedding merges in list order.
-/

/-- Embeds `run_multithreading_tasks`: spawn one worker per task, join all,
then drain the shared queue merging each put dict (`{**results, **queue.get()}`).
A raised task contributes nothing and does not abort the runner. -/
def run_multithreading_tasks (tasks : List (Except PyErr Dict)) : Except PyErr Dict :=
  Except.ok (tasks.foldl
    (fun results t =>
      match t with
      | Except.ok d => dmerge results d
      | Except.error _ => results)
    [])

/-!
Row Reshaper for single rows — `analyze_and_format_internal_user_data`,
identical in create_internal_user/lambda_function.py lines 433-459 and
update_internal_user/lambda_function.py lines 387-413.  Note the membership
tests: `key.startswith("gender_")`, `key.startswith("role_")`, but
`"organization_" in key` (substring containment, not a prefix test).
-/

/-- The `for key, value in internal_user_data.items()` loop of
`analyze_and_format_internal_user_data`, threading the four accumulator dicts
`internal_user, gender, role, organization`. -/
def formatInternalUserKeys :
    List (String × PyVal) → Dict × Dict × Dict × Dict → Dict × Dict × Dict × Dict
  | [], acc => acc
  | (k, v) :: rest, (iu, g, ro, org) =>
    if strStartsWith k "gender_" then
      formatInternalUserKeys rest (iu, dinsert g (camel_case k) v, ro, org)
    else if strStartsWith k "role_" then
      formatInternalUserKeys rest (iu, g, dinsert ro (camel_case k) v, org)
    else if strContains k "organization_" then
      formatInternalUserKeys rest (iu, g, ro, dinsert org (camel_case k) v)
    else
      formatInternalUserKeys rest (dinsert iu (camel_case k) v, g, ro, org)

/-- Embeds `analyze_and_format_internal_user_data` (create_internal_user /
update_internal_user): distribute the columns of one flat row into the
top-level object and the `gender` / `role` / `organization` sub-objects, then
attach the three sub-objects.  `None` input yields the empty dict. -/
def analyze_and_format_internal_user_data (internal_user_data : Option Dict) : Dict :=
  match internal_user_data with
  | Option.none => []
  | some row =>
    let acc := formatInternalUserKeys row ([], [], [], [])
    dinsert (dinsert (dinsert acc.1 "gender" (PyVal.dict acc.2.1))
      "role" (PyVal.dict acc.2.2.1)) "organization" (PyVal.dict acc.2.2.2)

/-!
Row Reshaper for lists of rows — `analyze_and_format_internal_users_data`,
get_internal_users/lambda_function.py lines 225-258.  Here the organization
test is a genuine prefix test, and the loop over one record's keys contains
`elif key == "total_number_of_users": break` — the `break` leaves the
remaining keys of the record unprocessed.
-/

/-- The inner `for key, value in record.items()` loop of
`analyze_and_format_internal_users_data`: same grouping as the single-row
reshaper except that the organization test is `key.startswith("organization_")`
and the loop breaks on the key `"total_number_of_users"`. -/
def formatInternalUsersKeys :
    List (String × PyVal) → Dict × Dict × Dict × Dict → Dict × Dict × Dict × Dict
  | [], acc => acc
  | (k, v) :: rest, (iu, g, ro, org) =>
    if strStartsWith k "gender_" then
      formatInternalUsersKeys rest (iu, dinsert g (camel_case k) v, ro, org)
    else if strStartsWith k "role_" then
      formatInternalUsersKeys rest (iu, g, dinsert ro (camel_case k) v, org)
    else if strStartsWith k "organization_" then
      formatInternalUsersKeys rest (iu, g, ro, dinsert org (camel_case k) v)
    else if k = "total_number_of_users" then
      (iu, g, ro, org)
    else
      formatInternalUsersKeys rest (dinsert iu (camel_case k) v, g, ro, org)

/-- One iteration of the outer record loop: reshape a single record of the
list query (before appending it to `internal_users`). -/
def formatInternalUsersRecord (record : Dict) : Dict :=
  let acc := formatInternalUsersKeys record ([], [], [], [])
  dinsert (dinsert (dinsert acc.1 "gender" (PyVal.dict acc.2.1))
    "role" (PyVal.dict acc.2.2.1)) "organization" (PyVal.dict acc.2.2.2)

/-- Embeds `analyze_and_format_internal_users_data` (get_internal_users):
reshape every record and read `record["total_items_count"]` from the record at
index 0 (a `KeyError` when the first record lacks that column). -/
def analyze_and_format_internal_users_data (internal_users_data : Option (List Dict)) :
    Except PyErr (List Dict × PyVal) :=
  match internal_users_data with
  | Option.none => Except.ok ([], PyVal.int 0)
  | some [] => Except.ok ([], PyVal.int 0)
  | some (r0 :: rest) =>
    match dlookup r0 "total_items_count" with
    | Option.none => Except.error (PyErr.keyError "total_items_count")
    | some total =>
      Except.ok ((r0 :: rest).map formatInternalUsersRecord, total)

/-!
Row Reshaper of get_internal_user —
get_internal_user/lambda_function.py lines 212-238: same grouping shape as the
create_internal_user / update_internal_user reshaper, but the organization
test is `key.startswith("organization_")` (a genuine prefix test) and there is
no break.
-/

/-- The `for key, value in internal_user_data.items()` loop of
get_internal_user's `analyze_and_format_internal_user_data` (lines 224-232). -/
def formatGetInternalUserKeys :
    List (String × PyVal) → Dict × Dict × Dict × Dict → Dict × Dict × Dict × Dict
  | [], acc => acc
  | (k, v) :: rest, (iu, g, ro, org) =>
    if strStartsWith k "gender_" then
      formatGetInternalUserKeys rest (iu, dinsert g (camel_case k) v, ro, org)
    else if strStartsWith k "role_" then
      formatGetInternalUserKeys rest (iu, g, dinsert ro (camel_case k) v, org)
    else if strStartsWith k "organization_" then
      formatGetInternalUserKeys rest (iu, g, ro, dinsert org (camel_case k) v)
    else
      formatGetInternalUserKeys rest (dinsert iu (camel_case k) v, g, ro, org)

/-- Embeds get_internal_user's `analyze_and_format_internal_user_data`
(lines 212-238): distribute the columns of one flat row, every group decided
by a starts-with test, then attach the three sub-objects. -/
def analyze_and_format_get_internal_user_data (internal_user_data : Option Dict) : Dict :=
  match internal_user_data with
  | Option.none => []
  | some row =>
    let acc := formatGetInternalUserKeys row ([], [], [], [])
    dinsert (dinsert (dinsert acc.1 "gender" (PyVal.dict acc.2.1))
      "role" (PyVal.dict acc.2.2.1)) "organization" (PyVal.dict acc.2.2.2)

/-!
JSON serialization — `json.dumps` with its default separators, as used for the
`auth0_metadata` / `metadata` argument-map entries (`json.dumps(None)` is the
4-character text "null").  String escaping is not modelled (no claim exercises
special characters inside serialized strings).
-/

mutual

/-- Embeds `json.dumps` on the modelled value shapes. -/
def jsonDumps : PyVal → String
  | PyVal.null => "null"
  | PyVal.bool true => "true"
  | PyVal.bool false => "false"
  | PyVal.int n => toString n
  | PyVal.str s => "\"" ++ s ++ "\""
  | PyVal.list xs => "[" ++ jsonDumpsList xs ++ "]"
  | PyVal.dict kvs => "\x7b" ++ jsonDumpsDict kvs ++ "\x7d"

/-- Comma-separated serialization of a JSON array body. -/
def jsonDumpsList : List PyVal → String
  | [] => ""
  | [x] => jsonDumps x
  | x :: y :: rest => jsonDumps x ++ ", " ++ jsonDumpsList (y :: rest)

/-- Comma-separated serialization of a JSON object body. -/
def jsonDumpsDict : List (String × PyVal) → String
  | [] => ""
  | [(k, v)] => "\"" ++ k ++ "\": " ++ jsonDumps v
  | (k, v) :: q :: rest => "\"" ++ k ++ "\": " ++ jsonDumps v ++ ", " ++ jsonDumpsDict (q :: rest)

end

/-!
Field Normalizer of create_internal_user —
create_internal_user/lambda_function.py lines 77-120.
-/

/-- The declared required arguments of create_internal_user (line 91). -/
def requiredArgumentsCreateInternalUser : List String :=
  ["userPrimaryEmail", "password"]

/-- The `for argument_name, argument_value in input_arguments.items()` loop of
create_internal_user's `check_input_arguments` (lines 92-96): any key outside
`required_arguments` raises, and any `None` value raises. -/
def validateCreateInternalUserLoop : List (String × PyVal) → Except PyErr Unit
  | [] => Except.ok ()
  | (k, v) :: rest =>
    if ¬ requiredArgumentsCreateInternalUser.contains k then
      Except.error (PyErr.unknownArgument k)
    else if v.isNull then
      Except.error (PyErr.noneArgument k)
    else
      validateCreateInternalUserLoop rest

/-- The ArgumentMap put into the queue by create_internal_user's
`check_input_arguments` (lines 99-117): `.get(..., None)` defaults for the
optional fields, direct subscripts for the required ones, and
`json.dumps(input_arguments.get("auth0Metadata", None))` for `auth0_metadata`. -/
def buildCreateInternalUserArguments (input : Dict) : Except PyErr Dict := do
  let primaryEmail ← dgetE input "userPrimaryEmail"
  let password ← dgetE input "password"
  Except.ok [
    ("auth0_user_id", dgetD input "auth0UserId"),
    ("auth0_metadata", PyVal.str (jsonDumps (dgetD input "auth0Metadata"))),
    ("user_profile_photo_url", dgetD input "userProfilePhotoUrl"),
    ("internal_user_first_name", dgetD input "userFirstName"),
    ("internal_user_last_name", dgetD input "userLastName"),
    ("internal_user_middle_name", dgetD input "userMiddleName"),
    ("internal_user_primary_email", primaryEmail),
    ("internal_user_secondary_email", dgetD input "userSecondaryEmail"),
    ("internal_user_primary_phone_number", dgetD input "userPrimaryPhoneNumber"),
    ("internal_user_secondary_phone_number", dgetD input "userSecondaryPhoneNumber"),
    ("internal_user_position_name", dgetD input "userPositionName"),
    ("gender_id", dgetD input "genderId"),
    ("role_id", dgetD input "roleId"),
    ("organization_id", dgetD input "organizationId"),
    ("password", password)]

/-- Embeds create_internal_user's `check_input_arguments` applied to the
`input` object: run the validation loop, then produce the ArgumentMap that the
function puts into the queue. -/
def checkInputArgumentsCreateInternalUser (input : Dict) : Except PyErr Dict := do
  validateCreateInternalUserLoop input
  buildCreateInternalUserArguments input

/-!
Field Normalizer of create_identified_user —
create_identified_user/lambda_function.py lines 74-132.

The validation loop (lines 89-93) guards both of its checks with
`argument_name == "metadata"`, and `"metadata"` is in `required_arguments`
(line 88), so the unknown-argument branch can never fire: keys other than
`"metadata"` are not examined at all.
-/

/-- The character class kept by `re.sub("[^0-9+]", "", ...)`. -/
def phoneChar (c : Char) : Bool :=
  c.isDigit || c == '+'

/-- Embeds `re.sub("[^0-9+]", "", phone_number)`: remove every character that
is neither a digit nor a plus sign. -/
def stripPhoneCharacters (s : String) : String :=
  String.mk (s.data.filter phoneChar)

/-- The declared required arguments of create_identified_user (line 88). -/
def requiredArgumentsCreateIdentifiedUser : List String :=
  ["metadata"]

/-- The validation loop of create_identified_user's `check_input_arguments`
(lines 89-93), translated literally: both branches test
`argument_name == "metadata"` first. -/
def validateCreateIdentifiedUserLoop : List (String × PyVal) → Except PyErr Unit
  | [] => Except.ok ()
  | (k, v) :: rest =>
    if k = "metadata" ∧ ¬ requiredArgumentsCreateIdentifiedUser.contains k then
      Except.error (PyErr.unknownArgument k)
    else if k = "metadata" ∧ v.isNull then
      Except.error (PyErr.noneArgument k)
    else
      validateCreateIdentifiedUserLoop rest

/-- Element-wise `re.sub` over the iterated value of a list-valued phone field
(`[re.sub("[^0-9+]", "", phone_number) for phone_number in ...]`): list
elements must be strings (`re.sub` raises `TypeError` otherwise). -/
def stripPhoneList : List PyVal → Except PyErr (List PyVal)
  | [] => Except.ok []
  | PyVal.str s :: rest =>
    (stripPhoneList rest).map (fun qs => PyVal.str (stripPhoneCharacters s) :: qs)
  | _ :: _ => Except.error PyErr.typeError

/-- Embeds lines 96-101 of create_identified_user's `check_input_arguments`:
when `userPrimaryPhoneNumber` is present and not `None` it is replaced by its
stripped form (`re.sub` raises `TypeError` when it is not a string). -/
def processPrimaryPhoneNumber (input : Dict) : Except PyErr Dict :=
  match dgetD input "userPrimaryPhoneNumber" with
  | PyVal.null => Except.ok input
  | PyVal.str s =>
    Except.ok (dinsert input "userPrimaryPhoneNumber" (PyVal.str (stripPhoneCharacters s)))
  | _ => Except.error PyErr.typeError

/-- Embeds lines 102-109 of create_identified_user's `check_input_arguments`:
when `userSecondaryPhoneNumber` is present and not `None` it is replaced by the
element-wise stripped list.  Iterating a Python string yields its one-character
substrings and iterating a dict yields its keys, reproduced here; iterating any
other modelled non-list value raises `TypeError`. -/
def processSecondaryPhoneNumber (input : Dict) : Except PyErr Dict :=
  match dgetD input "userSecondaryPhoneNumber" with
  | PyVal.null => Except.ok input
  | PyVal.list ps => do
    let qs ← stripPhoneList ps
    Except.ok (dinsert input "userSecondaryPhoneNumber" (PyVal.list qs))
  | PyVal.str s => do
    let qs ← stripPhoneList (s.data.map (fun c => PyVal.str (String.mk [c])))
    Except.ok (dinsert input "userSecondaryPhoneNumber" (PyVal.list qs))
  | PyVal.dict kvs => do
    let qs ← stripPhoneList (kvs.map (fun p => PyVal.str p.1))
    Except.ok (dinsert input "userSecondaryPhoneNumber" (PyVal.list qs))
  | _ => Except.error PyErr.typeError

/-- Embeds lines 95-109 of create_identified_user's `check_input_arguments`:
the primary phone-number field is processed first, then the secondary one on
the resulting dict. -/
def processPhoneNumbers (input : Dict) : Except PyErr Dict := do
  let step1 ← processPrimaryPhoneNumber input
  processSecondaryPhoneNumber step1

/-- The ArgumentMap put into the queue by create_identified_user's
`check_input_arguments` (lines 112-129), built from the (phone-processed)
input: `.get(..., None)` defaults for every field except the required
`metadata`, which is subscripted directly and serialized with `json.dumps`. -/
def buildCreateIdentifiedUserArguments (input : Dict) : Except PyErr Dict := do
  let metadata ← dgetE input "metadata"
  Except.ok [
    ("user_profile_photo_url", dgetD input "userProfilePhotoUrl"),
    ("identified_user_first_name", dgetD input "userFirstName"),
    ("identified_user_last_name", dgetD input "userLastName"),
    ("identified_user_middle_name", dgetD input "userMiddleName"),
    ("identified_user_primary_email", dgetD input "userPrimaryEmail"),
    ("identified_user_secondary_email", dgetD input "userSecondaryEmail"),
    ("identified_user_primary_phone_number", dgetD input "userPrimaryPhoneNumber"),
    ("identified_user_secondary_phone_number", dgetD input "userSecondaryPhoneNumber"),
    ("gender_id", dgetD input "genderId"),
    ("metadata", PyVal.str (jsonDumps metadata)),
    ("telegram_username", dgetD input "telegramUsername"),
    ("whatsapp_profile", dgetD input "whatsappProfile"),
    ("whatsapp_username", dgetD input "whatsappUsername"),
    ("instagram_private_username", dgetD input "instagramPrivateUsername")]

/-- Embeds create_identified_user's `check_input_arguments` applied to the
`input` object: validation loop, phone-number post-processing, then the
ArgumentMap put into the queue. -/
def checkInputArgumentsCreateIdentifiedUser (input : Dict) : Except PyErr Dict := do
  validateCreateIdentifiedUserLoop input
  let processed ← processPhoneNumbers input
  buildCreateIdentifiedUserArguments processed

/-!
Field Normalizer of update_internal_user —
update_internal_user/lambda_function.py lines 78-117.

The loop raises on any key outside `required_arguments = ["auth0UserId"]` and
otherwise renames the processed key (`internal_` + snake_case for keys in
`modified_arguments`, camel_case otherwise) by popping it and re-inserting the
renamed key into the same dict.  In CPython that pop/re-insert happens while
iterating the dict, whose continuation is implementation-defined; the unknown-
argument raise, however, always precedes any mutation for the item at hand, so
the embedding iterates the original items in order and collects the renamed
entries in a fresh dict.
-/

/-- The declared required arguments of update_internal_user (line 92). -/
def requiredArgumentsUpdateInternalUser : List String :=
  ["auth0UserId"]

/-- The `modified_arguments` list of update_internal_user (lines 93-102). -/
def modifiedArgumentsUpdateInternalUser : List String :=
  ["userFirstName", "userLastName", "userMiddleName", "userPrimaryEmail",
   "userSecondaryEmail", "userPrimaryPhoneNumber", "userSecondaryPhoneNumber",
   "userPositionName"]

/-- The validation/renaming loop of update_internal_user's
`check_input_arguments` (lines 103-109). -/
def validateUpdateInternalUserLoop : List (String × PyVal) → Dict → Except PyErr Dict
  | [], acc => Except.ok acc
  | (k, v) :: rest, acc =>
    if ¬ requiredArgumentsUpdateInternalUser.contains k then
      Except.error (PyErr.unknownArgument k)
    else if modifiedArgumentsUpdateInternalUser.contains k then
      validateUpdateInternalUserLoop rest (dinsert acc ("internal_" ++ snake_case k) v)
    else
      validateUpdateInternalUserLoop rest (dinsert acc (camel_case k) v)

/-- Embeds update_internal_user's `check_input_arguments` applied to the
`input` object. -/
def checkInputArgumentsUpdateInternalUser (input : Dict) : Except PyErr Dict :=
  validateUpdateInternalUserLoop input []

/-!
`postgresql_wrapper` — identical in every handler (for example
create_internal_user/lambda_function.py lines 247-261): look up the connection
(a `KeyError` when absent), open a per-call cursor, run the wrapped function,
close the cursor, return the result.  There is no try/finally around the
wrapped call: `cursor.close()` is only reached when the wrapped function
returns normally.
-/

/-- Cursor lifecycle events of one wrapped call. -/
inductive CursorEvent where
  | opened : CursorEvent
  | closed : CursorEvent
deriving Repr, DecidableEq

/-- Embeds `postgresql_wrapper`: `conn?` is `kwargs["postgresql_connection"]`
(absent when the key is missing) and `body` is the outcome of the wrapped
function once the cursor has been handed to it.  Returns the call outcome
together with the trace of cursor events. -/
def postgresql_wrapper (conn? : Option PyVal) (body : Except PyErr PyVal) :
    Except PyErr PyVal × List CursorEvent :=
  match conn? with
  | Option.none => (Except.error (PyErr.keyError "postgresql_connection"), [])
  | some _ =>
    match body with
    | Except.ok a => (Except.ok a, [CursorEvent.opened, CursorEvent.closed])
    | Except.error e => (Except.error e, [CursorEvent.opened])

/-!
Dynamic UPDATE statement of update_internal_user —
update_internal_user/lambda_function.py lines 285-308: the SET clause is built
from the argument-map keys minus `removed_arguments`, and `auth0_user_id`
appears only as the WHERE-clause placeholder.  When no keys remain, no
statement is executed at all.
-/

/-- The `removed_arguments` list (line 286). -/
def removedArgumentsUpdateInternalUser : List String :=
  ["auth0_user_id", "password", "user_profile_photo_url"]

/-- The generated `update internal_users set ... where auth0_user_id = ...`
statement: its SET-clause column names in order, and its WHERE-clause column. -/
structure UpdateStatement where
  setColumns : List String
  whereColumn : String
deriving Repr, DecidableEq

/-- Embeds the statement construction of `update_internal_user` (lines
286-298): filter the argument keys through `removed_arguments`; build the
statement when the remaining list is non-empty, otherwise execute nothing. -/
def updateInternalUserStatement (argumentKeys : List String) : Option UpdateStatement :=
  let sqlStatementArguments :=
    argumentKeys.filter (fun a => ¬ removedArgumentsUpdateInternalUser.contains a)
  if sqlStatementArguments.isEmpty then Option.none
  else some { setColumns := sqlStatementArguments, whereColumn := "auth0_user_id" }

/-- The effect of executing the generated UPDATE on one `internal_users` row
(as a column-name-to-value dict): every column named in the SET clause takes
the bound argument value, every other column keeps its value. -/
def applyUpdateStatement (stmt : UpdateStatement) (args : Dict) (row : Dict) : Dict :=
  row.map (fun p => bif stmt.setColumns.contains p.1 then (p.1, dgetD args p.1) else p)

/-!
Handler Pipeline of create_internal_user —
create_internal_user/lambda_function.py lines 462-528, with the external
collaborators (identity provider, relational store) supplied as an oracle of
responses and the calls made to them recorded as an effect trace.
-/

/-- Python truthiness (`if auth0_user_id:`, `if password:`). -/
def pyTruthy : PyVal → Bool
  | PyVal.null => false
  | PyVal.bool b => b
  | PyVal.int n => n != 0
  | PyVal.str s => !s.data.isEmpty
  | PyVal.list xs => !xs.isEmpty
  | PyVal.dict d => !d.isEmpty

/-- Python subscripting of a value that must be a dict (`TypeError`
otherwise). -/
def asDict : PyVal → Except PyErr Dict
  | PyVal.dict d => Except.ok d
  | _ => Except.error PyErr.typeError

/-- External calls made by the create_internal_user pipeline after the
parallel preparation barrier. -/
inductive Effect where
  | auth0CreateUser (data : Dict) : Effect
  | sqlInsertInternalUser (args : Dict) : Effect
  | sqlInsertUser (args : Dict) : Effect
  | sqlSelectInternalUser (args : Dict) : Effect
deriving Repr

/-- Responses of the external collaborators (identity provider and relational
store) consumed by one create_internal_user invocation. -/
structure CreateInternalUserOracle where
  access_token : PyVal
  auth0_response : Dict
  internal_user_id : String
  user_id : String
  select_row : Option Dict

/-- The `check_input_arguments` task of create_internal_user's handler: dig
out `kwargs["event"]["arguments"]["input"]` (lines 79-83), then validate and
normalize; on success the task puts `{"input_arguments": ...}` into the
queue. -/
def createInternalUserCheckTask (event : PyVal) : Except PyErr Dict := do
  let e ← asDict event
  let argumentsValue ← dgetE e "arguments"
  let a ← asDict argumentsValue
  let inputValue ← dgetE a "input"
  let input ← asDict inputValue
  let m ← checkInputArgumentsCreateInternalUser input
  Except.ok [("input_arguments", PyVal.dict m)]

/-- The `reuse_or_recreate_postgresql_connection` task: puts the (opaque)
connection handle. -/
def postgresqlConnectionTask : Except PyErr Dict :=
  Except.ok [("postgresql_connection", PyVal.str "postgresql_connection")]

/-- The `get_access_token_from_auth0` task: puts the token returned by the
identity provider. -/
def accessTokenTask (o : CreateInternalUserOracle) : Except PyErr Dict :=
  Except.ok [("access_token", o.access_token)]

/-- The variable bindings of lambda_handler lines 468-499: the merged results
of the three parallel tasks and the mandatory lookups performed on them. -/
structure CreateInternalUserBindings where
  input_arguments : Dict
  auth0_user_id : PyVal
  internal_user_first_name : PyVal
  internal_user_last_name : PyVal
  internal_user_primary_email : PyVal
  password : PyVal
  postgresql_connection : PyVal
  access_token : PyVal

/-- Embeds lambda_handler lines 468-499 (the part before any external call
after the barrier): all lookups on the merged task results and on
`input_arguments` are direct subscripts, raising `KeyError` when missing. -/
def createInternalUserBindings (event : PyVal) (o : CreateInternalUserOracle) :
    Except PyErr CreateInternalUserBindings := do
  let results ← run_multithreading_tasks
    [createInternalUserCheckTask event, postgresqlConnectionTask, accessTokenTask o]
  let inputArgumentsValue ← dgetE results "input_arguments"
  let input_arguments ← asDict inputArgumentsValue
  let auth0_user_id ← dgetE input_arguments "auth0_user_id"
  let internal_user_first_name ← dgetE input_arguments "internal_user_first_name"
  let internal_user_last_name ← dgetE input_arguments "internal_user_last_name"
  let internal_user_primary_email ← dgetE input_arguments "internal_user_primary_email"
  let password ← dgetE input_arguments "password"
  let postgresql_connection ← dgetE results "postgresql_connection"
  let access_token ← dgetE results "access_token"
  Except.ok {
    input_arguments := input_arguments,
    auth0_user_id := auth0_user_id,
    internal_user_first_name := internal_user_first_name,
    internal_user_last_name := internal_user_last_name,
    internal_user_primary_email := internal_user_primary_email,
    password := password,
    postgresql_connection := postgresql_connection,
    access_token := access_token }

/-- The JSON body posted by `create_user_in_auth0` (lines 220-233): the fixed
fields, then `given_name` / `family_name` added only when the corresponding
name is not `None`. -/
def auth0CreateUserData (first last email password : PyVal) : Dict :=
  let data : Dict := [
    ("connection", PyVal.str "Username-Password-Authentication"),
    ("email", email),
    ("email_verified", PyVal.bool false),
    ("verify_email", PyVal.bool false),
    ("blocked", PyVal.bool false),
    ("password", password)]
  let data := if first.isNull then data else dinsert data "given_name" first
  if last.isNull then data else dinsert data "family_name" last

/-- Embeds lambda_handler lines 500-528: the conditional identity-provider
credential creation (executed only when `auth0_user_id` is truthy, which also
overwrites `auth0_metadata` and `auth0_user_id` with the provider response),
the two INSERTs of the wrapped `create_internal_user`, the follow-up SELECT of
`get_internal_user_data`, and the final reshaping.  Returns the handler
outcome and the trace of external calls. -/
def lambdaHandlerCreateInternalUser (event : PyVal) (o : CreateInternalUserOracle) :
    Except PyErr Dict × List Effect :=
  match createInternalUserBindings event o with
  | Except.error e => (Except.error e, [])
  | Except.ok b =>
    let afterAuth0 :=
      if pyTruthy b.auth0_user_id then
        let ia1 := dinsert b.input_arguments "auth0_metadata" (PyVal.dict o.auth0_response)
        let ia2 := dinsert ia1 "auth0_user_id" (dgetD ia1 "auth0_metadata")
        (ia2, [Effect.auth0CreateUser (auth0CreateUserData b.internal_user_first_name
          b.internal_user_last_name b.internal_user_primary_email b.password)])
      else (b.input_arguments, ([] : List Effect))
    let sqlArguments := afterAuth0.1
    let sqlArgumentsWithId := dinsert sqlArguments "internal_user_id" (PyVal.str o.internal_user_id)
    let selectArguments : Dict := [("user_id", PyVal.str o.user_id)]
    let trace := afterAuth0.2 ++
      [Effect.sqlInsertInternalUser sqlArguments,
       Effect.sqlInsertUser sqlArgumentsWithId,
       Effect.sqlSelectInternalUser selectArguments]
    (Except.ok (analyze_and_format_internal_user_data o.select_row), trace)


-- Basic dictionary lemmas shared by the claim proofs.

theorem dlookup_dinsert_self (d : Dict) (k : String) (v : PyVal) :
    dlookup (dinsert d k v) k = some v := by
  induction d with
  | nil => simp [dinsert, dlookup]
  | cons p rest ih =>
    obtain ⟨k', v'⟩ := p
    by_cases h : k' = k
    · simp [dinsert, dlookup, h]
    · simp [dinsert, dlookup, h, ih]

theorem dlookup_dinsert_ne (d : Dict) (k k2 : String) (v : PyVal) (h : k ≠ k2) :
    dlookup (dinsert d k v) k2 = dlookup d k2 := by
  induction d with
  | nil => simp [dinsert, dlookup, h]
  | cons p rest ih =>
    obtain ⟨k', v'⟩ := p
    by_cases h' : k' = k
    · subst h'
      simp [dinsert, dlookup, h]
    · simp [dinsert, dlookup, h', ih]

theorem dhasKey_dinsert (d : Dict) (k k2 : String) (v : PyVal) :
    dhasKey (dinsert d k v) k2 = true ↔ k = k2 ∨ dhasKey d k2 = true := by
  induction d with
  | nil =>
    constructor
    · intro h
      by_cases hk : k = k2
      · exact Or.inl hk
      · simp [dinsert, dhasKey, hk] at h
    · intro h
      rcases h with h | h
      · simp [dinsert, dhasKey, h]
      · simp [dhasKey] at h
  | cons p rest ih =>
    obtain ⟨k', v'⟩ := p
    by_cases h' : k' = k
    · subst h'
      by_cases hk : k' = k2
      · simp [dinsert, dhasKey, hk]
      · simp [dinsert, dhasKey, hk]
    · by_cases hk : k' = k2
      · subst hk
        simp [dinsert, dhasKey, h']
      · simp [dinsert, dhasKey, h', hk, ih]

theorem dhasKey_dinsert_of (d : Dict) (k k2 : String) (v : PyVal)
    (h : dhasKey d k2 = true) : dhasKey (dinsert d k v) k2 = true :=
  (dhasKey_dinsert d k k2 v).mpr (Or.inr h)

theorem dhasKey_dinsert_self (d : Dict) (k : String) (v : PyVal) :
    dhasKey (dinsert d k v) k = true :=
  (dhasKey_dinsert d k k v).mpr (Or.inl rfl)

theorem dlookup_eq_none_of_not_mem (d : Dict) (k : String)
    (h : ∀ p ∈ d, p.1 ≠ k) : dlookup d k = Option.none := by
  induction d with
  | nil => simp [dlookup]
  | cons p rest ih =>
    obtain ⟨k', v'⟩ := p
    have hk : k' ≠ k := h (k', v') (List.mem_cons_self _ _)
    simp only [dlookup, if_neg hk]
    exact ih (fun q hq => h q (List.mem_cons_of_mem _ hq))

theorem dhasKey_dmerge (a b : Dict) (k : String) :
    dhasKey (dmerge a b) k = true ↔ dhasKey a k = true ∨ dhasKey b k = true := by
  induction b generalizing a with
  | nil => simp [dmerge, dhasKey]
  | cons p rest ih =>
    obtain ⟨k', v'⟩ := p
    have : dmerge a ((k', v') :: rest) = dmerge (dinsert a k' v') rest := rfl
    rw [this, ih]
    constructor
    · intro h
      rcases h with h | h
      · rcases (dhasKey_dinsert a k' k v').mp h with h | h
        · exact Or.inr (by simp [dhasKey, h])
        · exact Or.inl h
      · exact Or.inr (by
          by_cases hk : k' = k
          · simp [dhasKey, hk]
          · simp [dhasKey, hk, h])
    · intro h
      rcases h with h | h
      · exact Or.inl (dhasKey_dinsert_of _ _ _ _ h)
      · by_cases hk : k' = k
        · exact Or.inl ((dhasKey_dinsert a k' k v').mpr (Or.inl hk))
        · simp only [dhasKey, if_neg hk] at h
          exact Or.inr h
-- Helper lemmas about the task runner's result merging.

theorem runnerFold_key_provenance (ts : List (Except PyErr Dict)) (acc : Dict) (k : String)
    (h : dhasKey (ts.foldl
      (fun results t =>
        match t with
        | Except.ok d => dmerge results d
        | Except.error _ => results) acc) k = true) :
    dhasKey acc k = true ∨ ∃ t ∈ ts, ∃ dt, t = Except.ok dt ∧ dhasKey dt k = true := by
  induction ts generalizing acc with
  | nil => exact Or.inl h
  | cons t rest ih =>
    cases t with
    | ok d =>
      rcases ih (dmerge acc d) h with h' | h'
      · rcases (dhasKey_dmerge acc d k).mp h' with h2 | h2
        · exact Or.inl h2
        · exact Or.inr ⟨Except.ok d, List.mem_cons_self _ _, d, rfl, h2⟩
      · obtain ⟨t, ht, dt, htd, hk⟩ := h'
        exact Or.inr ⟨t, List.mem_cons_of_mem _ ht, dt, htd, hk⟩
    | error e =>
      rcases ih acc h with h' | h'
      · exact Or.inl h'
      · obtain ⟨t, ht, dt, htd, hk⟩ := h'
        exact Or.inr ⟨t, List.mem_cons_of_mem _ ht, dt, htd, hk⟩

/-- Claim C1 (amended): `run_multithreading_tasks` never propagates a task's
error — it always returns a normally-merged result map, and every key of that
map stems from a task that completed successfully, so a failed task
contributes nothing (its output keys are simply missing). -/
theorem claim_C1_runner_swallows_task_errors :
    ∀ ts : List (Except PyErr Dict), ∃ d, run_multithreading_tasks ts = Except.ok d ∧
      ∀ k, dhasKey d k = true → ∃ t ∈ ts, ∃ dt, t = Except.ok dt ∧ dhasKey dt k = true := by
  intro ts
  refine ⟨_, rfl, ?_⟩
  intro k h
  rcases runnerFold_key_provenance ts [] k h with h' | h'
  · simp [dhasKey] at h'
  · exact h'

/-- Claim C1 witness: the theorem applied to a concrete task list containing a
raised task. -/
theorem claim_C1_runner_swallows_task_errors_witness :
    ∃ d, run_multithreading_tasks
      [Except.ok [("input_arguments", PyVal.null)], Except.error PyErr.typeError]
      = Except.ok d := by
  obtain ⟨d, hd, _⟩ := claim_C1_runner_swallows_task_errors
    [Except.ok [("input_arguments", PyVal.null)], Except.error PyErr.typeError]
  exact ⟨d, hd⟩

/-- Claim C1 counterexample: a task list whose only task raises, yet
`run_multithreading_tasks` returns a normally-merged (empty) result map to the
caller instead of propagating the error. -/
theorem claim_C1_counterexample :
    (∃ t ∈ ([Except.error (PyErr.keyError "event")] : List (Except PyErr Dict)),
      ∀ d, t ≠ Except.ok d) ∧
    run_multithreading_tasks [Except.error (PyErr.keyError "event")] = Except.ok [] := by
  refine ⟨⟨Except.error (PyErr.keyError "event"), List.mem_singleton_self _, ?_⟩, rfl⟩
  intro d h
  cases h

/-- Claim C3: evaluation of the list reshaper at the failing input.  The
exclusion guard compares the key with "total_number_of_users", but the window
aggregate column is named "total_items_count", so the guard never fires: the
total count is read from the first row AND also kept, camel-cased, inside the
per-row reshaped object. -/
theorem claim_C3_total_count_kept_in_row :
    analyze_and_format_internal_users_data
      (some [[("total_items_count", PyVal.int 5), ("user_id", PyVal.str "u1")]]) =
      Except.ok ([[("totalItemsCount", PyVal.int 5), ("userId", PyVal.str "u1"),
        ("gender", PyVal.dict []), ("role", PyVal.dict []),
        ("organization", PyVal.dict [])]], PyVal.int 5) ∧
    dhasKey [("totalItemsCount", PyVal.int 5), ("userId", PyVal.str "u1"),
        ("gender", PyVal.dict []), ("role", PyVal.dict []),
        ("organization", PyVal.dict [])] "totalItemsCount" = true :=
  ⟨rfl, rfl⟩

/-- Claim C8 (amended): `postgresql_wrapper` returns the wrapped outcome
unchanged, and the per-call cursor is closed exactly when the wrapped function
returns normally — on the error path the wrapper propagates the error without
reaching `cursor.close()` (there is no try/finally). -/
theorem claim_C8_cursor_closed_iff_success :
    ∀ (conn : PyVal) (body : Except PyErr PyVal),
      (postgresql_wrapper (some conn) body).1 = body ∧
      (CursorEvent.closed ∈ (postgresql_wrapper (some conn) body).2 ↔ ∃ a, body = Except.ok a) := by
  intro conn body
  cases body with
  | ok a =>
    exact ⟨rfl, by simp [postgresql_wrapper]⟩
  | error e =>
    exact ⟨rfl, by simp [postgresql_wrapper]⟩

/-- Claim C8 witness: the theorem applied to a concrete successful call. -/
theorem claim_C8_cursor_closed_iff_success_witness :
    (postgresql_wrapper (some (PyVal.str "postgresql_connection")) (Except.ok PyVal.null)).1
      = Except.ok PyVal.null :=
  (claim_C8_cursor_closed_iff_success (PyVal.str "postgresql_connection") (Except.ok PyVal.null)).1

/-- Claim C8 counterexample: when the wrapped function raises, the wrapper's
trace contains no close event — the cursor is not released on the error exit
path. -/
theorem claim_C8_counterexample :
    postgresql_wrapper (some (PyVal.str "postgresql_connection")) (Except.error PyErr.typeError)
      = (Except.error PyErr.typeError, [CursorEvent.opened]) ∧
    CursorEvent.closed ∉ [CursorEvent.opened] :=
  ⟨rfl, by simp⟩

-- Helper lemmas for the dynamic UPDATE statement (claim C10).

theorem applyUpdateStatement_preserves_of_not_set (stmt : UpdateStatement) (args row : Dict)
    (key : String) (h : stmt.setColumns.contains key = false) :
    dlookup (applyUpdateStatement stmt args row) key = dlookup row key := by
  induction row with
  | nil => rfl
  | cons p rest ih =>
    obtain ⟨k', v'⟩ := p
    simp only [applyUpdateStatement, List.map_cons] at ih ⊢
    cases hc : stmt.setColumns.contains k' with
    | true =>
      have hk : k' ≠ key := by
        intro hkk
        rw [hkk, h] at hc
        cases hc
      simp only [hc, cond_true, dlookup, if_neg hk]
      exact ih
    | false =>
      by_cases hk : k' = key
      · subst hk
        simp [hc, dlookup]
      · simp only [hc, cond_false, dlookup, if_neg hk]
        exact ih

theorem not_mem_updateStatement_setColumns (argumentKeys : List String) (key : String)
    (hkey : removedArgumentsUpdateInternalUser.contains key = true) :
    key ∉ argumentKeys.filter (fun a => ¬ removedArgumentsUpdateInternalUser.contains a) := by
  intro hmem
  have hpred := (List.mem_filter.mp hmem).2
  exact of_decide_eq_true hpred hkey

/-- Claim C10: the dynamically generated UPDATE of `update_internal_user`
never lists `auth0_user_id`, `password` or `user_profile_photo_url` in its SET
clause (they are filtered via `removed_arguments`); `auth0_user_id` appears
only as the WHERE-clause column, and executing the statement on any
`internal_users` row leaves those three columns unchanged. -/
theorem claim_C10_update_never_sets_removed_columns :
    ∀ (argumentKeys : List String) (stmt : UpdateStatement),
      updateInternalUserStatement argumentKeys = some stmt →
      ("auth0_user_id" ∉ stmt.setColumns ∧ "password" ∉ stmt.setColumns ∧
        "user_profile_photo_url" ∉ stmt.setColumns ∧ stmt.whereColumn = "auth0_user_id") ∧
      ∀ (args row : Dict),
        dlookup (applyUpdateStatement stmt args row) "auth0_user_id"
          = dlookup row "auth0_user_id" ∧
        dlookup (applyUpdateStatement stmt args row) "password"
          = dlookup row "password" ∧
        dlookup (applyUpdateStatement stmt args row) "user_profile_photo_url"
          = dlookup row "user_profile_photo_url" := by
  intro argumentKeys stmt h
  unfold updateInternalUserStatement at h
  by_cases hempty :
      (argumentKeys.filter (fun a => ¬ removedArgumentsUpdateInternalUser.contains a)).isEmpty = true
  · rw [if_pos hempty] at h
    cases h
  · rw [if_neg hempty] at h
    injection h with h2
    subst h2
    have h1 : "auth0_user_id" ∉
        argumentKeys.filter (fun a => ¬ removedArgumentsUpdateInternalUser.contains a) :=
      not_mem_updateStatement_setColumns _ _ (by decide)
    have h2 : "password" ∉
        argumentKeys.filter (fun a => ¬ removedArgumentsUpdateInternalUser.contains a) :=
      not_mem_updateStatement_setColumns _ _ (by decide)
    have h3 : "user_profile_photo_url" ∉
        argumentKeys.filter (fun a => ¬ removedArgumentsUpdateInternalUser.contains a) :=
      not_mem_updateStatement_setColumns _ _ (by decide)
    have hb : ∀ (l : List String) (key : String), key ∉ l → l.contains key = false := by
      intro l key hkey
      cases hcontains : l.contains key with
      | true => exact absurd (by simpa using hcontains) hkey
      | false => rfl
    refine ⟨⟨h1, h2, h3, rfl⟩, ?_⟩
    intro args row
    exact ⟨applyUpdateStatement_preserves_of_not_set _ args row _ (hb _ _ h1),
      applyUpdateStatement_preserves_of_not_set _ args row _ (hb _ _ h2),
      applyUpdateStatement_preserves_of_not_set _ args row _ (hb _ _ h3)⟩

/-- Claim C10 witness: the theorem applied to the concrete argument-key list
of a request supplying a name, the auth0 id and a password. -/
theorem claim_C10_update_never_sets_removed_columns_witness :
    "password" ∉ (UpdateStatement.mk ["internal_user_first_name"] "auth0_user_id").setColumns ∧
    dlookup (applyUpdateStatement (UpdateStatement.mk ["internal_user_first_name"] "auth0_user_id")
        [("internal_user_first_name", PyVal.str "n"), ("auth0_user_id", PyVal.str "a")]
        [("auth0_user_id", PyVal.str "old"), ("internal_user_first_name", PyVal.str "m")])
        "auth0_user_id"
      = dlookup [("auth0_user_id", PyVal.str "old"), ("internal_user_first_name", PyVal.str "m")]
        "auth0_user_id" := by
  have h := claim_C10_update_never_sets_removed_columns
    ["internal_user_first_name", "auth0_user_id", "password"]
    (UpdateStatement.mk ["internal_user_first_name"] "auth0_user_id") (by decide)
  exact ⟨h.1.2.1, (h.2 _ _).1⟩

-- Helper lemmas about the single-row reshaper's accumulator components
-- (claims C4 and C5).

theorem formatInternalUserKeys_gender_mono (xs : List (String × PyVal)) :
    ∀ (iu g ro org : Dict) (key : String), dhasKey g key = true →
      dhasKey (formatInternalUserKeys xs (iu, g, ro, org)).2.1 key = true := by
  induction xs with
  | nil => intro iu g ro org key h; exact h
  | cons p rest ih =>
    intro iu g ro org key h
    obtain ⟨k, v⟩ := p
    simp only [formatInternalUserKeys]
    by_cases h1 : strStartsWith k "gender_" = true
    · rw [if_pos h1]
      exact ih _ _ _ _ _ (dhasKey_dinsert_of _ _ _ _ h)
    · rw [if_neg h1]
      by_cases h2 : strStartsWith k "role_" = true
      · rw [if_pos h2]
        exact ih _ _ _ _ _ h
      · rw [if_neg h2]
        by_cases h3 : strContains k "organization_" = true
        · rw [if_pos h3]
          exact ih _ _ _ _ _ h
        · rw [if_neg h3]
          exact ih _ _ _ _ _ h

theorem formatInternalUserKeys_org_mono (xs : List (String × PyVal)) :
    ∀ (iu g ro org : Dict) (key : String), dhasKey org key = true →
      dhasKey (formatInternalUserKeys xs (iu, g, ro, org)).2.2.2 key = true := by
  induction xs with
  | nil => intro iu g ro org key h; exact h
  | cons p rest ih =>
    intro iu g ro org key h
    obtain ⟨k, v⟩ := p
    simp only [formatInternalUserKeys]
    by_cases h1 : strStartsWith k "gender_" = true
    · rw [if_pos h1]
      exact ih _ _ _ _ _ h
    · rw [if_neg h1]
      by_cases h2 : strStartsWith k "role_" = true
      · rw [if_pos h2]
        exact ih _ _ _ _ _ h
      · rw [if_neg h2]
        by_cases h3 : strContains k "organization_" = true
        · rw [if_pos h3]
          exact ih _ _ _ _ _ (dhasKey_dinsert_of _ _ _ _ h)
        · rw [if_neg h3]
          exact ih _ _ _ _ _ h

theorem formatInternalUserKeys_gender_mem (xs : List (String × PyVal)) :
    ∀ (iu g ro org : Dict) (k : String) (v : PyVal), (k, v) ∈ xs →
      strStartsWith k "gender_" = true →
      dhasKey (formatInternalUserKeys xs (iu, g, ro, org)).2.1 (camel_case k) = true := by
  induction xs with
  | nil => intro _ _ _ _ _ _ h _; cases h
  | cons p rest ih =>
    intro iu g ro org k v hmem hpre
    obtain ⟨k0, v0⟩ := p
    rcases List.mem_cons.mp hmem with heq | hmem'
    · injection heq with hk hv
      subst hk
      subst hv
      simp only [formatInternalUserKeys]
      rw [if_pos hpre]
      exact formatInternalUserKeys_gender_mono _ _ _ _ _ _ (dhasKey_dinsert_self _ _ _)
    · simp only [formatInternalUserKeys]
      by_cases h1 : strStartsWith k0 "gender_" = true
      · rw [if_pos h1]
        exact ih _ _ _ _ _ _ hmem' hpre
      · rw [if_neg h1]
        by_cases h2 : strStartsWith k0 "role_" = true
        · rw [if_pos h2]
          exact ih _ _ _ _ _ _ hmem' hpre
        · rw [if_neg h2]
          by_cases h3 : strContains k0 "organization_" = true
          · rw [if_pos h3]
            exact ih _ _ _ _ _ _ hmem' hpre
          · rw [if_neg h3]
            exact ih _ _ _ _ _ _ hmem' hpre

theorem formatInternalUserKeys_org_mem (xs : List (String × PyVal)) :
    ∀ (iu g ro org : Dict) (k : String) (v : PyVal), (k, v) ∈ xs →
      strStartsWith k "gender_" = false → strStartsWith k "role_" = false →
      strContains k "organization_" = true →
      dhasKey (formatInternalUserKeys xs (iu, g, ro, org)).2.2.2 (camel_case k) = true := by
  induction xs with
  | nil => intro _ _ _ _ _ _ h _ _ _; cases h
  | cons p rest ih =>
    intro iu g ro org k v hmem hg hr ho
    obtain ⟨k0, v0⟩ := p
    rcases List.mem_cons.mp hmem with heq | hmem'
    · injection heq with hk hv
      subst hk
      subst hv
      simp only [formatInternalUserKeys]
      rw [if_neg (by rw [hg]; exact Bool.false_ne_true), if_neg (by rw [hr]; exact Bool.false_ne_true), if_pos ho]
      exact formatInternalUserKeys_org_mono _ _ _ _ _ _ (dhasKey_dinsert_self _ _ _)
    · simp only [formatInternalUserKeys]
      by_cases h1 : strStartsWith k0 "gender_" = true
      · rw [if_pos h1]
        exact ih _ _ _ _ _ _ hmem' hg hr ho
      · rw [if_neg h1]
        by_cases h2 : strStartsWith k0 "role_" = true
        · rw [if_pos h2]
          exact ih _ _ _ _ _ _ hmem' hg hr ho
        · rw [if_neg h2]
          by_cases h3 : strContains k0 "organization_" = true
          · rw [if_pos h3]
            exact ih _ _ _ _ _ _ hmem' hg hr ho
          · rw [if_neg h3]
            exact ih _ _ _ _ _ _ hmem' hg hr ho

theorem analyze_internal_user_gender_lookup (row : Dict) :
    dlookup (analyze_and_format_internal_user_data (some row)) "gender"
      = some (PyVal.dict (formatInternalUserKeys row ([], [], [], [])).2.1) := by
  simp only [analyze_and_format_internal_user_data]
  rw [dlookup_dinsert_ne _ _ _ _ (by decide), dlookup_dinsert_ne _ _ _ _ (by decide),
    dlookup_dinsert_self]

theorem analyze_internal_user_org_lookup (row : Dict) :
    dlookup (analyze_and_format_internal_user_data (some row)) "organization"
      = some (PyVal.dict (formatInternalUserKeys row ([], [], [], [])).2.2.2) := by
  simp only [analyze_and_format_internal_user_data]
  rw [dlookup_dinsert_self]

-- Helper lemmas about the list reshaper's top-level component (claim C5).

theorem formatInternalUsersKeys_top_mono (xs : List (String × PyVal)) :
    ∀ (iu g ro org : Dict) (key : String), dhasKey iu key = true →
      dhasKey (formatInternalUsersKeys xs (iu, g, ro, org)).1 key = true := by
  induction xs with
  | nil => intro iu g ro org key h; exact h
  | cons p rest ih =>
    intro iu g ro org key h
    obtain ⟨k, v⟩ := p
    simp only [formatInternalUsersKeys]
    by_cases h1 : strStartsWith k "gender_" = true
    · rw [if_pos h1]
      exact ih _ _ _ _ _ h
    · rw [if_neg h1]
      by_cases h2 : strStartsWith k "role_" = true
      · rw [if_pos h2]
        exact ih _ _ _ _ _ h
      · rw [if_neg h2]
        by_cases h3 : strStartsWith k "organization_" = true
        · rw [if_pos h3]
          exact ih _ _ _ _ _ h
        · rw [if_neg h3]
          by_cases h4 : k = "total_number_of_users"
          · rw [if_pos h4]
            exact h
          · rw [if_neg h4]
            exact ih _ _ _ _ _ (dhasKey_dinsert_of _ _ _ _ h)

theorem formatInternalUsersKeys_top_mem (xs : List (String × PyVal)) :
    ∀ (iu g ro org : Dict) (k : String) (v : PyVal), (k, v) ∈ xs →
      strStartsWith k "gender_" = false → strStartsWith k "role_" = false →
      strStartsWith k "organization_" = false →
      (∀ p ∈ xs, p.1 ≠ "total_number_of_users") →
      dhasKey (formatInternalUsersKeys xs (iu, g, ro, org)).1 (camel_case k) = true := by
  induction xs with
  | nil => intro _ _ _ _ _ _ h _ _ _ _; cases h
  | cons p rest ih =>
    intro iu g ro org k v hmem hg hr ho hnb
    obtain ⟨k0, v0⟩ := p
    have hnb0 : k0 ≠ "total_number_of_users" := hnb (k0, v0) (List.mem_cons_self _ _)
    have hnbrest : ∀ p ∈ rest, p.1 ≠ "total_number_of_users" :=
      fun q hq => hnb q (List.mem_cons_of_mem _ hq)
    rcases List.mem_cons.mp hmem with heq | hmem'
    · injection heq with hk hv
      subst hk
      subst hv
      simp only [formatInternalUsersKeys]
      rw [if_neg (by rw [hg]; exact Bool.false_ne_true),
        if_neg (by rw [hr]; exact Bool.false_ne_true),
        if_neg (by rw [ho]; exact Bool.false_ne_true), if_neg hnb0]
      exact formatInternalUsersKeys_top_mono _ _ _ _ _ _ (dhasKey_dinsert_self _ _ _)
    · simp only [formatInternalUsersKeys]
      by_cases h1 : strStartsWith k0 "gender_" = true
      · rw [if_pos h1]
        exact ih _ _ _ _ _ _ hmem' hg hr ho hnbrest
      · rw [if_neg h1]
        by_cases h2 : strStartsWith k0 "role_" = true
        · rw [if_pos h2]
          exact ih _ _ _ _ _ _ hmem' hg hr ho hnbrest
        · rw [if_neg h2]
          by_cases h3 : strStartsWith k0 "organization_" = true
          · rw [if_pos h3]
            exact ih _ _ _ _ _ _ hmem' hg hr ho hnbrest
          · rw [if_neg h3]
            rw [if_neg hnb0]
            exact ih _ _ _ _ _ _ hmem' hg hr ho hnbrest

-- Prefix facts shared by claims C4 and C5: two patterns with different first
-- characters cannot both be prefixes of the same key, and a prefix occurs as
-- a substring.

theorem charsPrefixOf_head_eq (c1 c2 : Char) (p q l : List Char)
    (h1 : charsPrefixOf (c1 :: p) l = true) (h2 : charsPrefixOf (c2 :: q) l = true) :
    c1 = c2 := by
  cases l with
  | nil => cases h1
  | cons d rest =>
    simp only [charsPrefixOf] at h1 h2
    by_cases e1 : c1 = d
    · by_cases e2 : c2 = d
      · rw [e1, e2]
      · rw [if_neg e2] at h2
        cases h2
    · rw [if_neg e1] at h1
      cases h1

theorem strStartsWith_disjoint (k p q : String) (cp cq : Char) (pl ql : List Char)
    (hp : p.data = cp :: pl) (hq : q.data = cq :: ql) (hne : cp ≠ cq)
    (h : strStartsWith k p = true) : strStartsWith k q = false := by
  unfold strStartsWith at h ⊢
  rw [hp] at h
  rw [hq]
  cases hc : charsPrefixOf (cq :: ql) k.data with
  | false => rfl
  | true => exact absurd (charsPrefixOf_head_eq cq cp ql pl k.data hc h) (Ne.symm hne)

theorem strStartsWith_strContains (k p : String) (h : strStartsWith k p = true) :
    strContains k p = true := by
  unfold strStartsWith at h
  unfold strContains
  cases hk : k.data with
  | nil =>
    rw [hk] at h
    simp only [charsContains]
    exact h
  | cons c rest =>
    rw [hk] at h
    simp only [charsContains]
    rw [h]
    rfl

-- Role component of the single-row reshaper (claim C4).

theorem formatInternalUserKeys_role_mono (xs : List (String × PyVal)) :
    ∀ (iu g ro org : Dict) (key : String), dhasKey ro key = true →
      dhasKey (formatInternalUserKeys xs (iu, g, ro, org)).2.2.1 key = true := by
  induction xs with
  | nil => intro iu g ro org key h; exact h
  | cons p rest ih =>
    intro iu g ro org key h
    obtain ⟨k, v⟩ := p
    simp only [formatInternalUserKeys]
    by_cases h1 : strStartsWith k "gender_" = true
    · rw [if_pos h1]
      exact ih _ _ _ _ _ h
    · rw [if_neg h1]
      by_cases h2 : strStartsWith k "role_" = true
      · rw [if_pos h2]
        exact ih _ _ _ _ _ (dhasKey_dinsert_of _ _ _ _ h)
      · rw [if_neg h2]
        by_cases h3 : strContains k "organization_" = true
        · rw [if_pos h3]
          exact ih _ _ _ _ _ h
        · rw [if_neg h3]
          exact ih _ _ _ _ _ h

theorem formatInternalUserKeys_role_mem (xs : List (String × PyVal)) :
    ∀ (iu g ro org : Dict) (k : String) (v : PyVal), (k, v) ∈ xs →
      strStartsWith k "gender_" = false → strStartsWith k "role_" = true →
      dhasKey (formatInternalUserKeys xs (iu, g, ro, org)).2.2.1 (camel_case k) = true := by
  induction xs with
  | nil => intro _ _ _ _ _ _ h _ _; cases h
  | cons p rest ih =>
    intro iu g ro org k v hmem hg hr
    obtain ⟨k0, v0⟩ := p
    rcases List.mem_cons.mp hmem with heq | hmem'
    · injection heq with hk hv
      subst hk
      subst hv
      simp only [formatInternalUserKeys]
      rw [if_neg (by rw [hg]; exact Bool.false_ne_true), if_pos hr]
      exact formatInternalUserKeys_role_mono _ _ _ _ _ _ (dhasKey_dinsert_self _ _ _)
    · simp only [formatInternalUserKeys]
      by_cases h1 : strStartsWith k0 "gender_" = true
      · rw [if_pos h1]
        exact ih _ _ _ _ _ _ hmem' hg hr
      · rw [if_neg h1]
        by_cases h2 : strStartsWith k0 "role_" = true
        · rw [if_pos h2]
          exact ih _ _ _ _ _ _ hmem' hg hr
        · rw [if_neg h2]
          by_cases h3 : strContains k0 "organization_" = true
          · rw [if_pos h3]
            exact ih _ _ _ _ _ _ hmem' hg hr
          · rw [if_neg h3]
            exact ih _ _ _ _ _ _ hmem' hg hr

theorem analyze_internal_user_role_lookup (row : Dict) :
    dlookup (analyze_and_format_internal_user_data (some row)) "role"
      = some (PyVal.dict (formatInternalUserKeys row ([], [], [], [])).2.2.1) := by
  simp only [analyze_and_format_internal_user_data]
  rw [dlookup_dinsert_ne _ _ _ _ (by decide), dlookup_dinsert_self]

-- Group components of the list reshaper (claims C4 and C5).

theorem formatInternalUsersKeys_gender_mono (xs : List (String × PyVal)) :
    ∀ (iu g ro org : Dict) (key : String), dhasKey g key = true →
      dhasKey (formatInternalUsersKeys xs (iu, g, ro, org)).2.1 key = true := by
  induction xs with
  | nil => intro iu g ro org key h; exact h
  | cons p rest ih =>
    intro iu g ro org key h
    obtain ⟨k, v⟩ := p
    simp only [formatInternalUsersKeys]
    by_cases h1 : strStartsWith k "gender_" = true
    · rw [if_pos h1]
      exact ih _ _ _ _ _ (dhasKey_dinsert_of _ _ _ _ h)
    · rw [if_neg h1]
      by_cases h2 : strStartsWith k "role_" = true
      · rw [if_pos h2]
        exact ih _ _ _ _ _ h
      · rw [if_neg h2]
        by_cases h3 : strStartsWith k "organization_" = true
        · rw [if_pos h3]
          exact ih _ _ _ _ _ h
        · rw [if_neg h3]
          by_cases h4 : k = "total_number_of_users"
          · rw [if_pos h4]
            exact h
          · rw [if_neg h4]
            exact ih _ _ _ _ _ h

theorem formatInternalUsersKeys_role_mono (xs : List (String × PyVal)) :
    ∀ (iu g ro org : Dict) (key : String), dhasKey ro key = true →
      dhasKey (formatInternalUsersKeys xs (iu, g, ro, org)).2.2.1 key = true := by
  induction xs with
  | nil => intro iu g ro org key h; exact h
  | cons p rest ih =>
    intro iu g ro org key h
    obtain ⟨k, v⟩ := p
    simp only [formatInternalUsersKeys]
    by_cases h1 : strStartsWith k "gender_" = true
    · rw [if_pos h1]
      exact ih _ _ _ _ _ h
    · rw [if_neg h1]
      by_cases h2 : strStartsWith k "role_" = true
      · rw [if_pos h2]
        exact ih _ _ _ _ _ (dhasKey_dinsert_of _ _ _ _ h)
      · rw [if_neg h2]
        by_cases h3 : strStartsWith k "organization_" = true
        · rw [if_pos h3]
          exact ih _ _ _ _ _ h
        · rw [if_neg h3]
          by_cases h4 : k = "total_number_of_users"
          · rw [if_pos h4]
            exact h
          · rw [if_neg h4]
            exact ih _ _ _ _ _ h

theorem formatInternalUsersKeys_org_mono (xs : List (String × PyVal)) :
    ∀ (iu g ro org : Dict) (key : String), dhasKey org key = true →
      dhasKey (formatInternalUsersKeys xs (iu, g, ro, org)).2.2.2 key = true := by
  induction xs with
  | nil => intro iu g ro org key h; exact h
  | cons p rest ih =>
    intro iu g ro org key h
    obtain ⟨k, v⟩ := p
    simp only [formatInternalUsersKeys]
    by_cases h1 : strStartsWith k "gender_" = true
    · rw [if_pos h1]
      exact ih _ _ _ _ _ h
    · rw [if_neg h1]
      by_cases h2 : strStartsWith k "role_" = true
      · rw [if_pos h2]
        exact ih _ _ _ _ _ h
      · rw [if_neg h2]
        by_cases h3 : strStartsWith k "organization_" = true
        · rw [if_pos h3]
          exact ih _ _ _ _ _ (dhasKey_dinsert_of _ _ _ _ h)
        · rw [if_neg h3]
          by_cases h4 : k = "total_number_of_users"
          · rw [if_pos h4]
            exact h
          · rw [if_neg h4]
            exact ih _ _ _ _ _ h

theorem formatInternalUsersKeys_gender_mem (xs : List (String × PyVal)) :
    ∀ (iu g ro org : Dict) (k : String) (v : PyVal), (k, v) ∈ xs →
      strStartsWith k "gender_" = true →
      (∀ p ∈ xs, p.1 ≠ "total_number_of_users") →
      dhasKey (formatInternalUsersKeys xs (iu, g, ro, org)).2.1 (camel_case k) = true := by
  induction xs with
  | nil => intro _ _ _ _ _ _ h _ _; cases h
  | cons p rest ih =>
    intro iu g ro org k v hmem hpre hnb
    obtain ⟨k0, v0⟩ := p
    have hnb0 : k0 ≠ "total_number_of_users" := hnb (k0, v0) (List.mem_cons_self _ _)
    have hnbrest : ∀ p ∈ rest, p.1 ≠ "total_number_of_users" :=
      fun q hq => hnb q (List.mem_cons_of_mem _ hq)
    rcases List.mem_cons.mp hmem with heq | hmem'
    · injection heq with hk hv
      subst hk
      subst hv
      simp only [formatInternalUsersKeys]
      rw [if_pos hpre]
      exact formatInternalUsersKeys_gender_mono _ _ _ _ _ _ (dhasKey_dinsert_self _ _ _)
    · simp only [formatInternalUsersKeys]
      by_cases h1 : strStartsWith k0 "gender_" = true
      · rw [if_pos h1]
        exact ih _ _ _ _ _ _ hmem' hpre hnbrest
      · rw [if_neg h1]
        by_cases h2 : strStartsWith k0 "role_" = true
        · rw [if_pos h2]
          exact ih _ _ _ _ _ _ hmem' hpre hnbrest
        · rw [if_neg h2]
          by_cases h3 : strStartsWith k0 "organization_" = true
          · rw [if_pos h3]
            exact ih _ _ _ _ _ _ hmem' hpre hnbrest
          · rw [if_neg h3]
            rw [if_neg hnb0]
            exact ih _ _ _ _ _ _ hmem' hpre hnbrest

theorem formatInternalUsersKeys_role_mem (xs : List (String × PyVal)) :
    ∀ (iu g ro org : Dict) (k : String) (v : PyVal), (k, v) ∈ xs →
      strStartsWith k "gender_" = false → strStartsWith k "role_" = true →
      (∀ p ∈ xs, p.1 ≠ "total_number_of_users") →
      dhasKey (formatInternalUsersKeys xs (iu, g, ro, org)).2.2.1 (camel_case k) = true := by
  induction xs with
  | nil => intro _ _ _ _ _ _ h _ _ _; cases h
  | cons p rest ih =>
    intro iu g ro org k v hmem hg hr hnb
    obtain ⟨k0, v0⟩ := p
    have hnb0 : k0 ≠ "total_number_of_users" := hnb (k0, v0) (List.mem_cons_self _ _)
    have hnbrest : ∀ p ∈ rest, p.1 ≠ "total_number_of_users" :=
      fun q hq => hnb q (List.mem_cons_of_mem _ hq)
    rcases List.mem_cons.mp hmem with heq | hmem'
    · injection heq with hk hv
      subst hk
      subst hv
      simp only [formatInternalUsersKeys]
      rw [if_neg (by rw [hg]; exact Bool.false_ne_true), if_pos hr]
      exact formatInternalUsersKeys_role_mono _ _ _ _ _ _ (dhasKey_dinsert_self _ _ _)
    · simp only [formatInternalUsersKeys]
      by_cases h1 : strStartsWith k0 "gender_" = true
      · rw [if_pos h1]
        exact ih _ _ _ _ _ _ hmem' hg hr hnbrest
      · rw [if_neg h1]
        by_cases h2 : strStartsWith k0 "role_" = true
        · rw [if_pos h2]
          exact ih _ _ _ _ _ _ hmem' hg hr hnbrest
        · rw [if_neg h2]
          by_cases h3 : strStartsWith k0 "organization_" = true
          · rw [if_pos h3]
            exact ih _ _ _ _ _ _ hmem' hg hr hnbrest
          · rw [if_neg h3]
            rw [if_neg hnb0]
            exact ih _ _ _ _ _ _ hmem' hg hr hnbrest

theorem formatInternalUsersKeys_org_mem (xs : List (String × PyVal)) :
    ∀ (iu g ro org : Dict) (k : String) (v : PyVal), (k, v) ∈ xs →
      strStartsWith k "gender_" = false → strStartsWith k "role_" = false →
      strStartsWith k "organization_" = true →
      (∀ p ∈ xs, p.1 ≠ "total_number_of_users") →
      dhasKey (formatInternalUsersKeys xs (iu, g, ro, org)).2.2.2 (camel_case k) = true := by
  induction xs with
  | nil => intro _ _ _ _ _ _ h _ _ _ _; cases h
  | cons p rest ih =>
    intro iu g ro org k v hmem hg hr ho hnb
    obtain ⟨k0, v0⟩ := p
    have hnb0 : k0 ≠ "total_number_of_users" := hnb (k0, v0) (List.mem_cons_self _ _)
    have hnbrest : ∀ p ∈ rest, p.1 ≠ "total_number_of_users" :=
      fun q hq => hnb q (List.mem_cons_of_mem _ hq)
    rcases List.mem_cons.mp hmem with heq | hmem'
    · injection heq with hk hv
      subst hk
      subst hv
      simp only [formatInternalUsersKeys]
      rw [if_neg (by rw [hg]; exact Bool.false_ne_true),
        if_neg (by rw [hr]; exact Bool.false_ne_true), if_pos ho]
      exact formatInternalUsersKeys_org_mono _ _ _ _ _ _ (dhasKey_dinsert_self _ _ _)
    · simp only [formatInternalUsersKeys]
      by_cases h1 : strStartsWith k0 "gender_" = true
      · rw [if_pos h1]
        exact ih _ _ _ _ _ _ hmem' hg hr ho hnbrest
      · rw [if_neg h1]
        by_cases h2 : strStartsWith k0 "role_" = true
        · rw [if_pos h2]
          exact ih _ _ _ _ _ _ hmem' hg hr ho hnbrest
        · rw [if_neg h2]
          by_cases h3 : strStartsWith k0 "organization_" = true
          · rw [if_pos h3]
            exact ih _ _ _ _ _ _ hmem' hg hr ho hnbrest
          · rw [if_neg h3]
            rw [if_neg hnb0]
            exact ih _ _ _ _ _ _ hmem' hg hr ho hnbrest

theorem formatInternalUsersRecord_gender_lookup (row : Dict) :
    dlookup (formatInternalUsersRecord row) "gender"
      = some (PyVal.dict (formatInternalUsersKeys row ([], [], [], [])).2.1) := by
  simp only [formatInternalUsersRecord]
  rw [dlookup_dinsert_ne _ _ _ _ (by decide), dlookup_dinsert_ne _ _ _ _ (by decide),
    dlookup_dinsert_self]

theorem formatInternalUsersRecord_role_lookup (row : Dict) :
    dlookup (formatInternalUsersRecord row) "role"
      = some (PyVal.dict (formatInternalUsersKeys row ([], [], [], [])).2.2.1) := by
  simp only [formatInternalUsersRecord]
  rw [dlookup_dinsert_ne _ _ _ _ (by decide), dlookup_dinsert_self]

theorem formatInternalUsersRecord_org_lookup (row : Dict) :
    dlookup (formatInternalUsersRecord row) "organization"
      = some (PyVal.dict (formatInternalUsersKeys row ([], [], [], [])).2.2.2) := by
  simp only [formatInternalUsersRecord]
  rw [dlookup_dinsert_self]

-- Top-level component of the get_internal_user reshaper (claim C5).

theorem formatGetInternalUserKeys_top_mono (xs : List (String × PyVal)) :
    ∀ (iu g ro org : Dict) (key : String), dhasKey iu key = true →
      dhasKey (formatGetInternalUserKeys xs (iu, g, ro, org)).1 key = true := by
  induction xs with
  | nil => intro iu g ro org key h; exact h
  | cons p rest ih =>
    intro iu g ro org key h
    obtain ⟨k, v⟩ := p
    simp only [formatGetInternalUserKeys]
    by_cases h1 : strStartsWith k "gender_" = true
    · rw [if_pos h1]
      exact ih _ _ _ _ _ h
    · rw [if_neg h1]
      by_cases h2 : strStartsWith k "role_" = true
      · rw [if_pos h2]
        exact ih _ _ _ _ _ h
      · rw [if_neg h2]
        by_cases h3 : strStartsWith k "organization_" = true
        · rw [if_pos h3]
          exact ih _ _ _ _ _ h
        · rw [if_neg h3]
          exact ih _ _ _ _ _ (dhasKey_dinsert_of _ _ _ _ h)

theorem formatGetInternalUserKeys_top_mem (xs : List (String × PyVal)) :
    ∀ (iu g ro org : Dict) (k : String) (v : PyVal), (k, v) ∈ xs →
      strStartsWith k "gender_" = false → strStartsWith k "role_" = false →
      strStartsWith k "organization_" = false →
      dhasKey (formatGetInternalUserKeys xs (iu, g, ro, org)).1 (camel_case k) = true := by
  induction xs with
  | nil => intro _ _ _ _ _ _ h _ _ _; cases h
  | cons p rest ih =>
    intro iu g ro org k v hmem hg hr ho
    obtain ⟨k0, v0⟩ := p
    rcases List.mem_cons.mp hmem with heq | hmem'
    · injection heq with hk hv
      subst hk
      subst hv
      simp only [formatGetInternalUserKeys]
      rw [if_neg (by rw [hg]; exact Bool.false_ne_true),
        if_neg (by rw [hr]; exact Bool.false_ne_true),
        if_neg (by rw [ho]; exact Bool.false_ne_true)]
      exact formatGetInternalUserKeys_top_mono _ _ _ _ _ _ (dhasKey_dinsert_self _ _ _)
    · simp only [formatGetInternalUserKeys]
      by_cases h1 : strStartsWith k0 "gender_" = true
      · rw [if_pos h1]
        exact ih _ _ _ _ _ _ hmem' hg hr ho
      · rw [if_neg h1]
        by_cases h2 : strStartsWith k0 "role_" = true
        · rw [if_pos h2]
          exact ih _ _ _ _ _ _ hmem' hg hr ho
        · rw [if_neg h2]
          by_cases h3 : strStartsWith k0 "organization_" = true
          · rw [if_pos h3]
            exact ih _ _ _ _ _ _ hmem' hg hr ho
          · rw [if_neg h3]
            exact ih _ _ _ _ _ _ hmem' hg hr ho

/-- Claim C4 (amended): a column whose name starts with any recognized group
prefix (`gender_`, `role_` or `organization_`) is placed in that group's
sub-object, but under the camelCase conversion of the FULL column name with
the prefix retained: the reshapers pass the whole key to `utils.camel_case`,
so `gender_public_name` appears as `genderPublicName` inside `gender`, not as
`publicName`.  This holds in the create_internal_user / update_internal_user
reshaper and, for rows without the break-triggering pseudo-column, in the
get_internal_users per-record reshaper. -/
theorem claim_C4_group_subkey_keeps_prefix :
    ∀ (row : Dict) (k : String) (v : PyVal), (k, v) ∈ row →
      ((strStartsWith k "gender_" = true →
        ∃ sub, dlookup (analyze_and_format_internal_user_data (some row)) "gender"
            = some (PyVal.dict sub) ∧ dhasKey sub (camel_case k) = true) ∧
       (strStartsWith k "role_" = true →
        ∃ sub, dlookup (analyze_and_format_internal_user_data (some row)) "role"
            = some (PyVal.dict sub) ∧ dhasKey sub (camel_case k) = true) ∧
       (strStartsWith k "organization_" = true →
        ∃ sub, dlookup (analyze_and_format_internal_user_data (some row)) "organization"
            = some (PyVal.dict sub) ∧ dhasKey sub (camel_case k) = true)) ∧
      ((∀ p ∈ row, p.1 ≠ "total_number_of_users") →
       (strStartsWith k "gender_" = true →
        ∃ sub, dlookup (formatInternalUsersRecord row) "gender"
            = some (PyVal.dict sub) ∧ dhasKey sub (camel_case k) = true) ∧
       (strStartsWith k "role_" = true →
        ∃ sub, dlookup (formatInternalUsersRecord row) "role"
            = some (PyVal.dict sub) ∧ dhasKey sub (camel_case k) = true) ∧
       (strStartsWith k "organization_" = true →
        ∃ sub, dlookup (formatInternalUsersRecord row) "organization"
            = some (PyVal.dict sub) ∧ dhasKey sub (camel_case k) = true)) := by
  intro row k v hmem
  constructor
  · refine ⟨?_, ?_, ?_⟩
    · intro hpre
      exact ⟨(formatInternalUserKeys row ([], [], [], [])).2.1,
        analyze_internal_user_gender_lookup row,
        formatInternalUserKeys_gender_mem row _ _ _ _ k v hmem hpre⟩
    · intro hpre
      have hg : strStartsWith k "gender_" = false :=
        strStartsWith_disjoint k _ _ 'r' 'g' _ _ rfl rfl (by decide) hpre
      exact ⟨(formatInternalUserKeys row ([], [], [], [])).2.2.1,
        analyze_internal_user_role_lookup row,
        formatInternalUserKeys_role_mem row _ _ _ _ k v hmem hg hpre⟩
    · intro hpre
      have hg : strStartsWith k "gender_" = false :=
        strStartsWith_disjoint k _ _ 'o' 'g' _ _ rfl rfl (by decide) hpre
      have hr : strStartsWith k "role_" = false :=
        strStartsWith_disjoint k _ _ 'o' 'r' _ _ rfl rfl (by decide) hpre
      have hc : strContains k "organization_" = true :=
        strStartsWith_strContains k "organization_" hpre
      exact ⟨(formatInternalUserKeys row ([], [], [], [])).2.2.2,
        analyze_internal_user_org_lookup row,
        formatInternalUserKeys_org_mem row _ _ _ _ k v hmem hg hr hc⟩
  · intro hnb
    refine ⟨?_, ?_, ?_⟩
    · intro hpre
      exact ⟨(formatInternalUsersKeys row ([], [], [], [])).2.1,
        formatInternalUsersRecord_gender_lookup row,
        formatInternalUsersKeys_gender_mem row _ _ _ _ k v hmem hpre hnb⟩
    · intro hpre
      have hg : strStartsWith k "gender_" = false :=
        strStartsWith_disjoint k _ _ 'r' 'g' _ _ rfl rfl (by decide) hpre
      exact ⟨(formatInternalUsersKeys row ([], [], [], [])).2.2.1,
        formatInternalUsersRecord_role_lookup row,
        formatInternalUsersKeys_role_mem row _ _ _ _ k v hmem hg hpre hnb⟩
    · intro hpre
      have hg : strStartsWith k "gender_" = false :=
        strStartsWith_disjoint k _ _ 'o' 'g' _ _ rfl rfl (by decide) hpre
      have hr : strStartsWith k "role_" = false :=
        strStartsWith_disjoint k _ _ 'o' 'r' _ _ rfl rfl (by decide) hpre
      exact ⟨(formatInternalUsersKeys row ([], [], [], [])).2.2.2,
        formatInternalUsersRecord_org_lookup row,
        formatInternalUsersKeys_org_mem row _ _ _ _ k v hmem hg hr hpre hnb⟩

/-- Claim C4 witness: the theorem applied to a row carrying one column of each
recognized group prefix, for both reshapers. -/
theorem claim_C4_group_subkey_keeps_prefix_witness :
    (∃ sub, dlookup (analyze_and_format_internal_user_data
        (some [("gender_public_name", PyVal.str "M"), ("role_technical_name", PyVal.str "r"),
          ("organization_name", PyVal.str "o")])) "gender"
      = some (PyVal.dict sub) ∧ dhasKey sub (camel_case "gender_public_name") = true) ∧
    (∃ sub, dlookup (analyze_and_format_internal_user_data
        (some [("gender_public_name", PyVal.str "M"), ("role_technical_name", PyVal.str "r"),
          ("organization_name", PyVal.str "o")])) "role"
      = some (PyVal.dict sub) ∧ dhasKey sub (camel_case "role_technical_name") = true) ∧
    (∃ sub, dlookup (analyze_and_format_internal_user_data
        (some [("gender_public_name", PyVal.str "M"), ("role_technical_name", PyVal.str "r"),
          ("organization_name", PyVal.str "o")])) "organization"
      = some (PyVal.dict sub) ∧ dhasKey sub (camel_case "organization_name") = true) ∧
    (∃ sub, dlookup (formatInternalUsersRecord
        [("gender_public_name", PyVal.str "M"), ("role_technical_name", PyVal.str "r"),
          ("organization_name", PyVal.str "o")]) "organization"
      = some (PyVal.dict sub) ∧ dhasKey sub (camel_case "organization_name") = true) := by
  refine ⟨?_, ?_, ?_, ?_⟩
  · exact ( claim_C4_group_subkey_keeps_prefix
      [("gender_public_name", PyVal.str "M"), ("role_technical_name", PyVal.str "r"),
        ("organization_name", PyVal.str "o")]
      "gender_public_name" (PyVal.str "M") (by simp)).1.1 rfl
  · exact ( claim_C4_group_subkey_keeps_prefix
      [("gender_public_name", PyVal.str "M"), ("role_technical_name", PyVal.str "r"),
        ("organization_name", PyVal.str "o")]
      "role_technical_name" (PyVal.str "r") (by simp)).1.2.1 rfl
  · exact ( claim_C4_group_subkey_keeps_prefix
      [("gender_public_name", PyVal.str "M"), ("role_technical_name", PyVal.str "r"),
        ("organization_name", PyVal.str "o")]
      "organization_name" (PyVal.str "o") (by simp)).1.2.2 rfl
  · exact (( claim_C4_group_subkey_keeps_prefix
      [("gender_public_name", PyVal.str "M"), ("role_technical_name", PyVal.str "r"),
        ("organization_name", PyVal.str "o")]
      "organization_name" (PyVal.str "o") (by simp)).2 (by decide)).2.2 rfl

/-- Claim C4 counterexample: reshaping the row `{gender_public_name: "M"}`
puts the value under `genderPublicName` inside the `gender` sub-object; the
spec-claimed stripped sub-key `publicName` is absent. -/
theorem claim_C4_counterexample :
    analyze_and_format_internal_user_data (some [("gender_public_name", PyVal.str "M")])
      = [("gender", PyVal.dict [("genderPublicName", PyVal.str "M")]),
         ("role", PyVal.dict []), ("organization", PyVal.dict [])] ∧
    dhasKey [("genderPublicName", PyVal.str "M")] "publicName" = false ∧
    dhasKey [("genderPublicName", PyVal.str "M")] "genderPublicName" = true :=
  ⟨rfl, rfl, rfl⟩

/-- Claim C5 (amended): group membership is a starts-with test for `gender_`
and `role_` in every reshaper, but the organization test differs between
handlers: the create_internal_user and update_internal_user reshapers use
substring containment (`"organization_" in key`), so a column such as
`parent_organization_id` lands inside the `organization` sub-object there,
while the get_internal_user and get_internal_users reshapers use
`key.startswith("organization_")` and place the same column on the top-level
object. -/
theorem claim_C5_organization_grouping_differs_between_handlers :
    (∀ (row : Dict) (k : String) (v : PyVal), (k, v) ∈ row →
      strStartsWith k "gender_" = false → strStartsWith k "role_" = false →
      strContains k "organization_" = true →
      ∃ sub, dlookup (analyze_and_format_internal_user_data (some row)) "organization"
          = some (PyVal.dict sub) ∧ dhasKey sub (camel_case k) = true) ∧
    (∀ (row : Dict) (k : String) (v : PyVal), (k, v) ∈ row →
      strStartsWith k "gender_" = false → strStartsWith k "role_" = false →
      strStartsWith k "organization_" = false →
      (∀ p ∈ row, p.1 ≠ "total_number_of_users") →
      dhasKey (formatInternalUsersRecord row) (camel_case k) = true) ∧
    (∀ (row : Dict) (k : String) (v : PyVal), (k, v) ∈ row →
      strStartsWith k "gender_" = false → strStartsWith k "role_" = false →
      strStartsWith k "organization_" = false →
      dhasKey (analyze_and_format_get_internal_user_data (some row)) (camel_case k) = true) := by
  refine ⟨?_, ?_, ?_⟩
  · intro row k v hmem hg hr ho
    exact ⟨(formatInternalUserKeys row ([], [], [], [])).2.2.2,
      analyze_internal_user_org_lookup row,
      formatInternalUserKeys_org_mem row _ _ _ _ k v hmem hg hr ho⟩
  · intro row k v hmem hg hr ho hnb
    unfold formatInternalUsersRecord
    exact dhasKey_dinsert_of _ _ _ _ (dhasKey_dinsert_of _ _ _ _ (dhasKey_dinsert_of _ _ _ _
      (formatInternalUsersKeys_top_mem row _ _ _ _ k v hmem hg hr ho hnb)))
  · intro row k v hmem hg hr ho
    unfold analyze_and_format_get_internal_user_data
    exact dhasKey_dinsert_of _ _ _ _ (dhasKey_dinsert_of _ _ _ _ (dhasKey_dinsert_of _ _ _ _
      (formatGetInternalUserKeys_top_mem row _ _ _ _ k v hmem hg hr ho)))

/-- Claim C5 witness: all three halves of the theorem applied to the
one-column row `{parent_organization_id: "p"}`. -/
theorem claim_C5_organization_grouping_differs_between_handlers_witness :
    (∃ sub, dlookup (analyze_and_format_internal_user_data
        (some [("parent_organization_id", PyVal.str "p")])) "organization"
      = some (PyVal.dict sub) ∧ dhasKey sub (camel_case "parent_organization_id") = true) ∧
    dhasKey (formatInternalUsersRecord [("parent_organization_id", PyVal.str "p")])
      (camel_case "parent_organization_id") = true ∧
    dhasKey (analyze_and_format_get_internal_user_data
        (some [("parent_organization_id", PyVal.str "p")]))
      (camel_case "parent_organization_id") = true := by
  refine ⟨?_, ?_, ?_⟩
  · exact claim_C5_organization_grouping_differs_between_handlers.1
      [("parent_organization_id", PyVal.str "p")] "parent_organization_id" (PyVal.str "p")
      (List.mem_singleton_self _) rfl rfl rfl
  · exact claim_C5_organization_grouping_differs_between_handlers.2.1
      [("parent_organization_id", PyVal.str "p")] "parent_organization_id" (PyVal.str "p")
      (List.mem_singleton_self _) rfl rfl rfl
      (by intro p hp; cases List.mem_singleton.mp hp; decide)
  · exact claim_C5_organization_grouping_differs_between_handlers.2.2
      [("parent_organization_id", PyVal.str "p")] "parent_organization_id" (PyVal.str "p")
      (List.mem_singleton_self _) rfl rfl rfl

/-- Claim C5 counterexample: the create_internal_user / update_internal_user
reshaper puts `parent_organization_id` inside the `organization` sub-object
(substring match) and not on the top level, whereas the get_internal_users and
get_internal_user reshapers put the very same column on the top-level object:
the placement rule is not the same in every handler, and prefix-less
organization columns are not always top-level. -/
theorem claim_C5_counterexample :
    analyze_and_format_internal_user_data (some [("parent_organization_id", PyVal.str "p")])
      = [("gender", PyVal.dict []), ("role", PyVal.dict []),
         ("organization", PyVal.dict [("parentOrganizationId", PyVal.str "p")])] ∧
    dhasKey [("gender", PyVal.dict []), ("role", PyVal.dict []),
        ("organization", PyVal.dict [("parentOrganizationId", PyVal.str "p")])]
      "parentOrganizationId" = false ∧
    formatInternalUsersRecord [("parent_organization_id", PyVal.str "p")]
      = [("parentOrganizationId", PyVal.str "p"), ("gender", PyVal.dict []),
         ("role", PyVal.dict []), ("organization", PyVal.dict [])] ∧
    analyze_and_format_get_internal_user_data (some [("parent_organization_id", PyVal.str "p")])
      = [("parentOrganizationId", PyVal.str "p"), ("gender", PyVal.dict []),
         ("role", PyVal.dict []), ("organization", PyVal.dict [])] :=
  ⟨rfl, rfl, rfl, rfl⟩


-- Helper lemmas for the create_internal_user normalizer and pipeline
-- (claims C2 and C7).

theorem validateCreateInternalUserLoop_error_of_unknown (input : List (String × PyVal)) :
    (∃ p ∈ input, requiredArgumentsCreateInternalUser.contains p.1 = false) →
    ∃ e, validateCreateInternalUserLoop input = Except.error e := by
  induction input with
  | nil =>
    rintro ⟨p, hp, _⟩
    cases hp
  | cons q rest ih =>
    rintro ⟨p, hp, hpf⟩
    obtain ⟨k, v⟩ := q
    simp only [validateCreateInternalUserLoop]
    by_cases h1 : ¬ requiredArgumentsCreateInternalUser.contains k = true
    · rw [if_pos h1]
      exact ⟨_, rfl⟩
    · rw [if_neg h1]
      have hk : requiredArgumentsCreateInternalUser.contains k = true := not_not.mp h1
      have hmem : p ∈ rest := by
        rcases List.mem_cons.mp hp with heq | hm
        · rw [heq] at hpf
          rw [hpf] at hk
          cases hk
        · exact hm
      by_cases h2 : v.isNull = true
      · rw [if_pos h2]
        exact ⟨_, rfl⟩
      · rw [if_neg h2]
        exact ih ⟨p, hmem, hpf⟩

theorem checkCreateInternalUser_error_of_unknown (input : Dict)
    (h : ∃ p ∈ input, requiredArgumentsCreateInternalUser.contains p.1 = false) :
    ∃ e, checkInputArgumentsCreateInternalUser input = Except.error e := by
  obtain ⟨e, he⟩ := validateCreateInternalUserLoop_error_of_unknown input h
  refine ⟨e, ?_⟩
  unfold checkInputArgumentsCreateInternalUser
  rw [he]
  rfl

theorem lambdaHandlerCreateInternalUser_aborts_of_check_error (event : PyVal)
    (o : CreateInternalUserOracle) (e : PyErr)
    (h : createInternalUserCheckTask event = Except.error e) :
    lambdaHandlerCreateInternalUser event o
      = (Except.error (PyErr.keyError "input_arguments"), []) := by
  have hbind : createInternalUserBindings event o
      = Except.error (PyErr.keyError "input_arguments") := by
    unfold createInternalUserBindings
    rw [h]
    simp only [run_multithreading_tasks, postgresqlConnectionTask, accessTokenTask, dmerge,
      List.foldl, dinsert, dgetE]
    rfl
  unfold lambdaHandlerCreateInternalUser
  rw [hbind]

/-- Claim C2 (amended): an input object containing any key outside the
declared required set `{userPrimaryEmail, password}` — in particular the
spec's scenario input, whose `auth0UserId` key is undeclared (and whose null
value would also be rejected) — fails create_internal_user's validation; the
raised error is swallowed by the thread runner, so the handler then stops with
a `KeyError` on the missing `input_arguments` task result, before any
identity-provider user creation and before any SQL statement: the effect trace
is empty and no reshaped response is produced. -/
theorem claim_C2_pipeline_rejects_input_with_undeclared_keys :
    ∀ (input : Dict) (o : CreateInternalUserOracle),
      (∃ p ∈ input, requiredArgumentsCreateInternalUser.contains p.1 = false) →
      (∃ e, checkInputArgumentsCreateInternalUser input = Except.error e) ∧
      lambdaHandlerCreateInternalUser
        (PyVal.dict [("arguments", PyVal.dict [("input", PyVal.dict input)])]) o
        = (Except.error (PyErr.keyError "input_arguments"), []) := by
  intro input o h
  obtain ⟨e, he⟩ := checkCreateInternalUser_error_of_unknown input h
  refine ⟨⟨e, he⟩, ?_⟩
  apply lambdaHandlerCreateInternalUser_aborts_of_check_error _ _ e
  have hred : createInternalUserCheckTask
      (PyVal.dict [("arguments", PyVal.dict [("input", PyVal.dict input)])])
      = Except.bind (checkInputArgumentsCreateInternalUser input)
          (fun m => Except.ok [("input_arguments", PyVal.dict m)]) := rfl
  rw [hred, he]
  rfl

/-- Claim C2 witness: the theorem applied to the scenario input of the spec
and a concrete oracle. -/
theorem claim_C2_pipeline_rejects_input_with_undeclared_keys_witness :
    lambdaHandlerCreateInternalUser
      (PyVal.dict [("arguments", PyVal.dict [("input", PyVal.dict
        [("auth0UserId", PyVal.null), ("userPrimaryEmail", PyVal.str "a@b.com"),
         ("password", PyVal.str "x")])])])
      ⟨PyVal.str "token", [], "1", "2", Option.none⟩
      = (Except.error (PyErr.keyError "input_arguments"), []) :=
  (claim_C2_pipeline_rejects_input_with_undeclared_keys
    [("auth0UserId", PyVal.null), ("userPrimaryEmail", PyVal.str "a@b.com"),
     ("password", PyVal.str "x")]
    ⟨PyVal.str "token", [], "1", "2", Option.none⟩
    ⟨("auth0UserId", PyVal.null), List.mem_cons_self _ _, by decide⟩).2

/-- Claim C2 counterexample: on the exact scenario input
`{auth0UserId: null, userPrimaryEmail: "a@b.com", password: "x"}` the
validator raises an unknown-argument error for `auth0UserId`, and the pipeline
returns a `KeyError` failure with an empty effect trace — it creates no
identity-provider credential, no `internal_users` row and no `users` row, and
produces no reshaped response. -/
theorem claim_C2_counterexample :
    checkInputArgumentsCreateInternalUser
      [("auth0UserId", PyVal.null), ("userPrimaryEmail", PyVal.str "a@b.com"),
       ("password", PyVal.str "x")]
      = Except.error (PyErr.unknownArgument "auth0UserId") ∧
    lambdaHandlerCreateInternalUser
      (PyVal.dict [("arguments", PyVal.dict [("input", PyVal.dict
        [("auth0UserId", PyVal.null), ("userPrimaryEmail", PyVal.str "a@b.com"),
         ("password", PyVal.str "x")])])])
      ⟨PyVal.str "tok", [], "1", "2", Option.none⟩
      = (Except.error (PyErr.keyError "input_arguments"), []) :=
  ⟨rfl, rfl⟩

-- Helper lemma for the update_internal_user validator (claim C6).

theorem validateUpdateInternalUserLoop_error_of_unknown (input : List (String × PyVal)) :
    ∀ acc : Dict, (∃ p ∈ input, requiredArgumentsUpdateInternalUser.contains p.1 = false) →
      ∃ k, validateUpdateInternalUserLoop input acc = Except.error (PyErr.unknownArgument k) ∧
        requiredArgumentsUpdateInternalUser.contains k = false := by
  induction input with
  | nil =>
    rintro acc ⟨p, hp, _⟩
    cases hp
  | cons q rest ih =>
    rintro acc ⟨p, hp, hpf⟩
    obtain ⟨k0, v0⟩ := q
    simp only [validateUpdateInternalUserLoop]
    by_cases h1 : ¬ requiredArgumentsUpdateInternalUser.contains k0 = true
    · rw [if_pos h1]
      refine ⟨k0, rfl, ?_⟩
      cases hc : requiredArgumentsUpdateInternalUser.contains k0
      · rfl
      · exact absurd hc h1
    · rw [if_neg h1]
      have hk0 : requiredArgumentsUpdateInternalUser.contains k0 = true := not_not.mp h1
      have hmem : p ∈ rest := by
        rcases List.mem_cons.mp hp with heq | hm
        · rw [heq] at hpf
          rw [hpf] at hk0
          cases hk0
        · exact hm
      by_cases h2 : modifiedArgumentsUpdateInternalUser.contains k0 = true
      · rw [if_pos h2]
        exact ih _ ⟨p, hmem, hpf⟩
      · rw [if_neg h2]
        exact ih _ ⟨p, hmem, hpf⟩

/-- Claim C6 (amended): unknown-field rejection is not uniform across the
handlers.  The update_internal_user validator does raise an unknown-argument
error for any input containing a key outside its declared set (before any
statement reaches the data store), but the create_identified_user validation
loop guards both of its checks with `argument_name == "metadata"` — a key that
is in its declared set — so the unknown-argument branch can never fire and an
input containing undeclared keys passes its loop whenever a supplied
`metadata` is not null. -/
theorem claim_C6_unknown_field_rejection_not_uniform :
    (∀ input : Dict,
      (∃ p ∈ input, requiredArgumentsUpdateInternalUser.contains p.1 = false) →
      ∃ k, checkInputArgumentsUpdateInternalUser input
          = Except.error (PyErr.unknownArgument k) ∧
        requiredArgumentsUpdateInternalUser.contains k = false) ∧
    (∀ input : Dict,
      (∀ p ∈ input, ¬ (p.1 = "metadata" ∧ p.2.isNull = true)) →
      validateCreateIdentifiedUserLoop input = Except.ok ()) := by
  constructor
  · intro input h
    exact validateUpdateInternalUserLoop_error_of_unknown input [] h
  · intro input h
    induction input with
    | nil => rfl
    | cons q rest ih =>
      obtain ⟨k0, v0⟩ := q
      have hq := h (k0, v0) (List.mem_cons_self _ _)
      have hrest : ∀ p ∈ rest, ¬ (p.1 = "metadata" ∧ p.2.isNull = true) :=
        fun p hp => h p (List.mem_cons_of_mem _ hp)
      simp only [validateCreateIdentifiedUserLoop]
      rw [if_neg, if_neg]
      · exact ih hrest
      · exact hq
      · rintro ⟨hk, hnc⟩
        subst hk
        exact hnc (by decide)

/-- Claim C6 witness: the theorem applied to concrete inputs — an update
request with the undeclared key `foo` is rejected, while a create-identified
request with the undeclared key `undeclaredField` passes the validation
loop. -/
theorem claim_C6_unknown_field_rejection_not_uniform_witness :
    (∃ k, checkInputArgumentsUpdateInternalUser
        [("auth0UserId", PyVal.str "a"), ("foo", PyVal.str "b")]
        = Except.error (PyErr.unknownArgument k) ∧
      requiredArgumentsUpdateInternalUser.contains k = false) ∧
    validateCreateIdentifiedUserLoop
      [("metadata", PyVal.dict []), ("undeclaredField", PyVal.str "x")] = Except.ok () := by
  constructor
  · exact claim_C6_unknown_field_rejection_not_uniform.1
      [("auth0UserId", PyVal.str "a"), ("foo", PyVal.str "b")]
      ⟨("foo", PyVal.str "b"), List.mem_cons_of_mem _ (List.mem_cons_self _ _), by decide⟩
  · exact claim_C6_unknown_field_rejection_not_uniform.2
      [("metadata", PyVal.dict []), ("undeclaredField", PyVal.str "x")] (by decide)

/-- Claim C6 counterexample: the create_identified_user validator accepts an
input object containing the undeclared key `undeclaredField` — its whole
`check_input_arguments` returns a normal ArgumentMap instead of failing with
an unknown-field error. -/
theorem claim_C6_counterexample :
    validateCreateIdentifiedUserLoop
      [("metadata", PyVal.dict []), ("undeclaredField", PyVal.str "x")] = Except.ok () ∧
    (checkInputArgumentsCreateIdentifiedUser
      [("metadata", PyVal.dict []), ("undeclaredField", PyVal.str "x")]).isOk = true :=
  ⟨rfl, rfl⟩

-- Helper lemma for claim C7: a validated create_internal_user input contains
-- only declared required keys.

theorem validateCreateInternalUserLoop_ok_keys (input : List (String × PyVal)) :
    validateCreateInternalUserLoop input = Except.ok () →
    ∀ p ∈ input, requiredArgumentsCreateInternalUser.contains p.1 = true := by
  induction input with
  | nil =>
    intro _ p hp
    cases hp
  | cons q rest ih =>
    intro h
    obtain ⟨k, v⟩ := q
    simp only [validateCreateInternalUserLoop] at h
    by_cases h1 : ¬ requiredArgumentsCreateInternalUser.contains k = true
    · rw [if_pos h1] at h
      cases h
    · rw [if_neg h1] at h
      by_cases h2 : v.isNull = true
      · rw [if_pos h2] at h
        cases h
      · rw [if_neg h2] at h
        intro p hp
        rcases List.mem_cons.mp hp with heq | hm
        · rw [heq]
          exact not_not.mp h1
        · exact ih h p hm

/-- Claim C7 (amended): in every ArgumentMap produced by a successful
create_internal_user validation, all unsupplied optional fields are the null
sentinel `None` — except the JSON-serialized `auth0_metadata` entry, which is
`json.dumps(None)`, i.e. the 4-character string "null", not `None`. -/
theorem claim_C7_optional_defaults_except_serialized_metadata :
    ∀ (input : Dict) (m : Dict),
      checkInputArgumentsCreateInternalUser input = Except.ok m →
      dlookup m "auth0_user_id" = some PyVal.null ∧
      dlookup m "user_profile_photo_url" = some PyVal.null ∧
      dlookup m "internal_user_first_name" = some PyVal.null ∧
      dlookup m "internal_user_last_name" = some PyVal.null ∧
      dlookup m "internal_user_middle_name" = some PyVal.null ∧
      dlookup m "internal_user_secondary_email" = some PyVal.null ∧
      dlookup m "internal_user_primary_phone_number" = some PyVal.null ∧
      dlookup m "internal_user_secondary_phone_number" = some PyVal.null ∧
      dlookup m "internal_user_position_name" = some PyVal.null ∧
      dlookup m "gender_id" = some PyVal.null ∧
      dlookup m "role_id" = some PyVal.null ∧
      dlookup m "organization_id" = some PyVal.null ∧
      dlookup m "auth0_metadata" = some (PyVal.str "null") := by
  intro input m h
  have hv : validateCreateInternalUserLoop input = Except.ok () := by
    cases hveq : validateCreateInternalUserLoop input with
    | error e =>
      unfold checkInputArgumentsCreateInternalUser at h
      rw [hveq] at h
      cases h
    | ok u =>
      cases u
      rfl
  have hkeys := validateCreateInternalUserLoop_ok_keys input hv
  have hbuild : buildCreateInternalUserArguments input = Except.ok m := by
    unfold checkInputArgumentsCreateInternalUser at h
    rw [hv] at h
    exact h
  have hopt : ∀ optKey : String, optKey ≠ "userPrimaryEmail" → optKey ≠ "password" →
      dgetD input optKey = PyVal.null := by
    intro optKey h1 h2
    unfold dgetD
    rw [dlookup_eq_none_of_not_mem]
    · rfl
    · intro p hp
      have hc := hkeys p hp
      have hor : p.1 = "userPrimaryEmail" ∨ p.1 = "password" := by
        simpa [requiredArgumentsCreateInternalUser] using hc
      rcases hor with h3 | h3
      · rw [h3]
        exact Ne.symm h1
      · rw [h3]
        exact Ne.symm h2
  cases hpe : dgetE input "userPrimaryEmail" with
  | error e =>
    unfold buildCreateInternalUserArguments at hbuild
    rw [hpe] at hbuild
    cases hbuild
  | ok primaryEmail =>
    cases hpw : dgetE input "password" with
    | error e =>
      unfold buildCreateInternalUserArguments at hbuild
      rw [hpe, hpw] at hbuild
      cases hbuild
    | ok password =>
      unfold buildCreateInternalUserArguments at hbuild
      rw [hpe, hpw] at hbuild
      injection hbuild with hm
      subst hm
      refine ⟨?_, ?_, ?_, ?_, ?_, ?_, ?_, ?_, ?_, ?_, ?_, ?_, ?_⟩
      all_goals simp [dlookup]
      all_goals rw [hopt _ (by decide) (by decide)]
      rfl

/-- Claim C7 witness: the theorem applied to a minimal valid input supplying
only the two required fields. -/
theorem claim_C7_optional_defaults_except_serialized_metadata_witness :
    dlookup [("auth0_user_id", PyVal.null), ("auth0_metadata", PyVal.str "null"),
      ("user_profile_photo_url", PyVal.null), ("internal_user_first_name", PyVal.null),
      ("internal_user_last_name", PyVal.null), ("internal_user_middle_name", PyVal.null),
      ("internal_user_primary_email", PyVal.str "a@b.com"),
      ("internal_user_secondary_email", PyVal.null),
      ("internal_user_primary_phone_number", PyVal.null),
      ("internal_user_secondary_phone_number", PyVal.null),
      ("internal_user_position_name", PyVal.null), ("gender_id", PyVal.null),
      ("role_id", PyVal.null), ("organization_id", PyVal.null),
      ("password", PyVal.str "x")] "auth0_metadata" = some (PyVal.str "null") :=
  (claim_C7_optional_defaults_except_serialized_metadata
    [("userPrimaryEmail", PyVal.str "a@b.com"), ("password", PyVal.str "x")] _ rfl).2.2.2.2.2.2.2.2.2.2.2.2

/-- Claim C7 counterexample: for the minimal valid input, the produced
ArgumentMap's `auth0_metadata` entry is the string "null"
(`json.dumps(None)`), which is not the `None` sentinel the claim asserts. -/
theorem claim_C7_counterexample :
    checkInputArgumentsCreateInternalUser
      [("userPrimaryEmail", PyVal.str "a@b.com"), ("password", PyVal.str "x")]
      = Except.ok [("auth0_user_id", PyVal.null), ("auth0_metadata", PyVal.str "null"),
        ("user_profile_photo_url", PyVal.null), ("internal_user_first_name", PyVal.null),
        ("internal_user_last_name", PyVal.null), ("internal_user_middle_name", PyVal.null),
        ("internal_user_primary_email", PyVal.str "a@b.com"),
        ("internal_user_secondary_email", PyVal.null),
        ("internal_user_primary_phone_number", PyVal.null),
        ("internal_user_secondary_phone_number", PyVal.null),
        ("internal_user_position_name", PyVal.null), ("gender_id", PyVal.null),
        ("role_id", PyVal.null), ("organization_id", PyVal.null),
        ("password", PyVal.str "x")] ∧
    PyVal.str "null" ≠ PyVal.null :=
  ⟨rfl, by simp⟩

-- Helper lemmas for phone-number stripping (claim C9).

theorem stripPhoneList_spec (ps : List PyVal) :
    ∀ qs, stripPhoneList ps = Except.ok qs →
      qs.length = ps.length ∧
      ∀ (i : Nat) (hi : i < ps.length) (hj : i < qs.length) (s : String),
        ps.get ⟨i, hi⟩ = PyVal.str s →
        qs.get ⟨i, hj⟩ = PyVal.str (stripPhoneCharacters s) := by
  induction ps with
  | nil =>
    intro qs h
    injection h with h2
    subst h2
    exact ⟨rfl, fun i hi _ _ _ => absurd hi (Nat.not_lt_zero i)⟩
  | cons p rest ih =>
    intro qs h
    cases p with
    | str s0 =>
      simp only [stripPhoneList] at h
      cases hr : stripPhoneList rest with
      | error e =>
        rw [hr] at h
        cases h
      | ok qs' =>
        rw [hr] at h
        simp only [Except.map] at h
        injection h with h2
        subst h2
        obtain ⟨hlen, hidx⟩ := ih qs' hr
        refine ⟨by simp [hlen], ?_⟩
        intro i hi hj s hs
        cases i with
        | zero =>
          simp only [List.get] at hs ⊢
          injection hs with hs0
          rw [hs0]
        | succ n =>
          simp only [List.get] at hs ⊢
          exact hidx n (Nat.lt_of_succ_lt_succ hi) (Nat.lt_of_succ_lt_succ hj) s hs
    | null => simp [stripPhoneList] at h
    | int n => simp [stripPhoneList] at h
    | bool b => simp [stripPhoneList] at h
    | list xs => simp [stripPhoneList] at h
    | dict kvs => simp [stripPhoneList] at h

theorem processPrimaryPhoneNumber_spec_str (input : Dict) (p : String)
    (hp : dlookup input "userPrimaryPhoneNumber" = some (PyVal.str p)) :
    processPrimaryPhoneNumber input
      = Except.ok (dinsert input "userPrimaryPhoneNumber"
          (PyVal.str (stripPhoneCharacters p))) := by
  unfold processPrimaryPhoneNumber
  have hd : dgetD input "userPrimaryPhoneNumber" = PyVal.str p := by
    simp [dgetD, hp]
  rw [hd]

theorem processPrimaryPhoneNumber_preserves (input out : Dict) (key : String)
    (hk : key ≠ "userPrimaryPhoneNumber")
    (h : processPrimaryPhoneNumber input = Except.ok out) :
    dlookup out key = dlookup input key := by
  unfold processPrimaryPhoneNumber at h
  cases hd : dgetD input "userPrimaryPhoneNumber" with
  | null =>
    rw [hd] at h
    injection h with h2
    subst h2
    rfl
  | str s =>
    rw [hd] at h
    injection h with h2
    subst h2
    exact dlookup_dinsert_ne _ _ _ _ (Ne.symm hk)
  | int n => rw [hd] at h; cases h
  | bool b => rw [hd] at h; cases h
  | list xs => rw [hd] at h; cases h
  | dict kvs => rw [hd] at h; cases h

theorem processSecondaryPhoneNumber_preserves (input out : Dict) (key : String)
    (hk : key ≠ "userSecondaryPhoneNumber")
    (h : processSecondaryPhoneNumber input = Except.ok out) :
    dlookup out key = dlookup input key := by
  cases hd : dgetD input "userSecondaryPhoneNumber" with
  | null =>
    unfold processSecondaryPhoneNumber at h
    rw [hd] at h
    injection h with h2
    subst h2
    rfl
  | list ps =>
    have hstep : processSecondaryPhoneNumber input
        = Except.bind (stripPhoneList ps)
            (fun qs => Except.ok (dinsert input "userSecondaryPhoneNumber" (PyVal.list qs))) := by
      unfold processSecondaryPhoneNumber
      rw [hd]
      rfl
    rw [hstep] at h
    cases hq : stripPhoneList ps with
    | error e => rw [hq] at h; cases h
    | ok qs =>
      rw [hq] at h
      injection h with h2
      subst h2
      exact dlookup_dinsert_ne _ _ _ _ (Ne.symm hk)
  | str s =>
    have hstep : processSecondaryPhoneNumber input
        = Except.bind (stripPhoneList (s.data.map (fun c => PyVal.str (String.mk [c]))))
            (fun qs => Except.ok (dinsert input "userSecondaryPhoneNumber" (PyVal.list qs))) := by
      unfold processSecondaryPhoneNumber
      rw [hd]
      rfl
    rw [hstep] at h
    cases hq : stripPhoneList (s.data.map (fun c => PyVal.str (String.mk [c]))) with
    | error e => rw [hq] at h; cases h
    | ok qs =>
      rw [hq] at h
      injection h with h2
      subst h2
      exact dlookup_dinsert_ne _ _ _ _ (Ne.symm hk)
  | dict kvs =>
    have hstep : processSecondaryPhoneNumber input
        = Except.bind (stripPhoneList (kvs.map (fun p => PyVal.str p.1)))
            (fun qs => Except.ok (dinsert input "userSecondaryPhoneNumber" (PyVal.list qs))) := by
      unfold processSecondaryPhoneNumber
      rw [hd]
      rfl
    rw [hstep] at h
    cases hq : stripPhoneList (kvs.map (fun p => PyVal.str p.1)) with
    | error e => rw [hq] at h; cases h
    | ok qs =>
      rw [hq] at h
      injection h with h2
      subst h2
      exact dlookup_dinsert_ne _ _ _ _ (Ne.symm hk)
  | int n => unfold processSecondaryPhoneNumber at h; rw [hd] at h; cases h
  | bool b => unfold processSecondaryPhoneNumber at h; rw [hd] at h; cases h

/-- Claim C9: the normalizer strips every character outside `[0-9+]` from
phone-number inputs — the kept characters are exactly the digits and plus
signs in their original order (a sublist of the input) — and it does so for
the scalar `userPrimaryPhoneNumber` value directly and for the list-valued
`userSecondaryPhoneNumber` element-wise, preserving the list's length and
element order. -/
theorem claim_C9_phone_characters_stripped :
    (∀ (s : String) (c : Char), c ∈ (stripPhoneCharacters s).data →
      c.isDigit = true ∨ c = '+') ∧
    (∀ s : String, (stripPhoneCharacters s).data.Sublist s.data) ∧
    (∀ (input out : Dict) (p : String),
      processPhoneNumbers input = Except.ok out →
      dlookup input "userPrimaryPhoneNumber" = some (PyVal.str p) →
      dlookup out "userPrimaryPhoneNumber"
        = some (PyVal.str (stripPhoneCharacters p))) ∧
    (∀ (input out : Dict) (ps : List PyVal),
      processPhoneNumbers input = Except.ok out →
      dlookup input "userSecondaryPhoneNumber" = some (PyVal.list ps) →
      ∃ qs, dlookup out "userSecondaryPhoneNumber" = some (PyVal.list qs) ∧
        qs.length = ps.length ∧
        ∀ (i : Nat) (hi : i < ps.length) (hj : i < qs.length) (s : String),
          ps.get ⟨i, hi⟩ = PyVal.str s →
          qs.get ⟨i, hj⟩ = PyVal.str (stripPhoneCharacters s)) := by
  refine ⟨?_, ?_, ?_, ?_⟩
  · intro s c hc
    have hpc := (List.mem_filter.mp hc).2
    rcases Bool.or_eq_true_iff.mp hpc with hd | hp
    · exact Or.inl hd
    · exact Or.inr (eq_of_beq hp)
  · intro s
    exact List.filter_sublist _
  · intro input out p h hp
    have hprim := processPrimaryPhoneNumber_spec_str input p hp
    unfold processPhoneNumbers at h
    rw [hprim] at h
    rw [processSecondaryPhoneNumber_preserves _ _ _ (by decide) h]
    exact dlookup_dinsert_self _ _ _
  · intro input out ps h hp
    unfold processPhoneNumbers at h
    cases hprim : processPrimaryPhoneNumber input with
    | error e => rw [hprim] at h; cases h
    | ok step1 =>
      rw [hprim] at h
      have hsec : dlookup step1 "userSecondaryPhoneNumber" = some (PyVal.list ps) := by
        rw [processPrimaryPhoneNumber_preserves input step1 _ (by decide) hprim]
        exact hp
      have hd : dgetD step1 "userSecondaryPhoneNumber" = PyVal.list ps := by
        simp [dgetD, hsec]
      have hstep : processSecondaryPhoneNumber step1
          = Except.bind (stripPhoneList ps)
              (fun qs => Except.ok (dinsert step1 "userSecondaryPhoneNumber" (PyVal.list qs))) := by
        unfold processSecondaryPhoneNumber
        rw [hd]
        rfl
      replace h : processSecondaryPhoneNumber step1 = Except.ok out := h
      rw [hstep] at h
      cases hq : stripPhoneList ps with
      | error e => rw [hq] at h; cases h
      | ok qs =>
        rw [hq] at h
        injection h with h2
        subst h2
        obtain ⟨hlen, hidx⟩ := stripPhoneList_spec ps qs hq
        exact ⟨qs, dlookup_dinsert_self _ _ _, hlen, hidx⟩

/-- Claim C9 witness: the theorem applied to a concrete input carrying a
formatted scalar phone number and a one-element list of formatted numbers. -/
theorem claim_C9_phone_characters_stripped_witness :
    dlookup [("userPrimaryPhoneNumber", PyVal.str "+77011112233"),
        ("userSecondaryPhoneNumber", PyVal.list [PyVal.str "87770001122"])]
      "userPrimaryPhoneNumber"
      = some (PyVal.str (stripPhoneCharacters "+7 (701) 111-22-33")) ∧
    (∃ qs, dlookup [("userPrimaryPhoneNumber", PyVal.str "+77011112233"),
        ("userSecondaryPhoneNumber", PyVal.list [PyVal.str "87770001122"])]
      "userSecondaryPhoneNumber" = some (PyVal.list qs) ∧
      qs.length = [PyVal.str "8 777 000 11 22"].length ∧
      ∀ (i : Nat) (hi : i < [PyVal.str "8 777 000 11 22"].length) (hj : i < qs.length)
        (s : String), [PyVal.str "8 777 000 11 22"].get ⟨i, hi⟩ = PyVal.str s →
        qs.get ⟨i, hj⟩ = PyVal.str (stripPhoneCharacters s)) := by
  constructor
  · exact claim_C9_phone_characters_stripped.2.2.1
      [("userPrimaryPhoneNumber", PyVal.str "+7 (701) 111-22-33"),
       ("userSecondaryPhoneNumber", PyVal.list [PyVal.str "8 777 000 11 22"])]
      _ "+7 (701) 111-22-33" rfl rfl
  · exact claim_C9_phone_characters_stripped.2.2.2
      [("userPrimaryPhoneNumber", PyVal.str "+7 (701) 111-22-33"),
       ("userSecondaryPhoneNumber", PyVal.list [PyVal.str "8 777 000 11 22"])]
      _ [PyVal.str "8 777 000 11 22"] rfl rfl
